import Mathlib

/-!
Verification of the DiscGolfAnalyzer pose-to-biomechanics pipeline.

This file gives a shallow embedding, over exact rational arithmetic, of:
  * the pose data model and `BiomechanicsAnalyzer` of
    `ml-service/pose/biomechanics.py`,
  * the keyframe detector `MediaPipePoseExtractor.get_keyframe_indices` of
    `ml-service/pose/mediapipe_extractor.py`,
  * the rule-based `FeedbackGenerator` of `ml-service/pose/feedback_rules.py`,
  * the key-moment detector `identify_key_moments` of
    `data-collection/form_metrics.py`,
  * `compare_with_pro` and `identify_throw_phases` of
    `data-collection/pro_form_analyzer.py`,
and proves properties of those definitions.

Modelling conventions:
  * Python floats are modelled as `ℚ` with exact arithmetic; `q / 0 = 0`
    is the Lean convention where the Python code never divides by zero on
    the inputs considered.
  * Python dicts are association lists in insertion order; `dict.get` is
    `List.lookup`.
  * `np.degrees(np.arctan2(y, x))` is an external math-library call; the
    analyzer is parameterized over that function (`af`), and `atan2deg`
    below records its exact values on axis-aligned inputs, which are the
    only inputs at which concrete theorems evaluate it.
-/

/-- Arithmetic mean of a list of rationals (`np.mean`); 0 on the empty list
(the code never takes a mean of an empty list on the paths modelled). -/
def meanQ (l : List ℚ) : ℚ := l.sum / l.length

/-- Python `int(...)` on a rational: truncation toward zero. -/
def pyInt (q : ℚ) : ℤ := if 0 ≤ q then ⌊q⌋ else ⌈q⌉

/-- Python `max` over a nonempty list, total-ized with the head as start. -/
def pyListMax (l : List ℚ) : ℚ := l.foldl max (l.headD 0)

/-- Python `min` over a nonempty list, total-ized with the head as start. -/
def pyListMin (l : List ℚ) : ℚ := l.foldl min (l.headD 0)

/-- `np.diff`: successive differences of a list. -/
def npDiff : List ℚ → List ℚ
  | [] => []
  | [_] => []
  | a :: b :: rest => (b - a) :: npDiff (b :: rest)

/-- Accumulator loop for `np.argmin`: `bi`/`bv` are the best index and value
so far, `i` the index of the head of the remaining list. A new element wins
only by being strictly smaller, so the first minimum is kept. -/
def argminAcc (bi : ℕ) (bv : ℚ) (i : ℕ) : List ℚ → ℕ
  | [] => bi
  | v :: rest => if v < bv then argminAcc i v (i + 1) rest
                 else argminAcc bi bv (i + 1) rest

/-- `np.argmin`: index of the first minimum of the list (0 on the empty list). -/
def npArgmin : List ℚ → ℕ
  | [] => 0
  | v :: rest => argminAcc 0 v 1 rest

/-- Accumulator loop for `np.argmax`, mirroring `argminAcc`. -/
def argmaxAcc (bi : ℕ) (bv : ℚ) (i : ℕ) : List ℚ → ℕ
  | [] => bi
  | v :: rest => if bv < v then argmaxAcc i v (i + 1) rest
                 else argmaxAcc bi bv (i + 1) rest

/-- `np.argmax`: index of the first maximum of the list (0 on the empty list). -/
def npArgmax : List ℚ → ℕ
  | [] => 0
  | v :: rest => argmaxAcc 0 v 1 rest

/-- Round half to even on `ℤ`-valued targets, Python `round(q)`. -/
def roundHalfEven (q : ℚ) : ℤ :=
  if q - ⌊q⌋ < 1/2 then ⌊q⌋
  else if 1/2 < q - ⌊q⌋ then ⌊q⌋ + 1
  else if Even ⌊q⌋ then ⌊q⌋ else ⌊q⌋ + 1

/-- Python `round(q, 1)`: round to the nearest multiple of 1/10, ties to even. -/
def round1 (q : ℚ) : ℚ := (roundHalfEven (q * 10) : ℚ) / 10

/-- Exact values of the external math library's degree-valued `arctan2` on
axis-aligned inputs; used only to instantiate the angle-function parameter of
the analyzer at concrete inputs where the true `arctan2` is exactly known
(`arctan2(0, x>0) = 0`, `arctan2(y>0, 0) = 90`, `arctan2(0, x<0) = 180`,
`arctan2(y<0, 0) = -90`). Off the axes it returns 0, and no theorem in this
file evaluates it there. -/
def atan2deg (y x : ℚ) : ℚ :=
  if y = 0 && 0 < x then 0
  else if x = 0 && 0 < y then 90
  else if y = 0 && x < 0 then 180
  else if x = 0 && y < 0 then -90
  else 0

/-- A single pose landmark (`PoseLandmark` in `mediapipe_extractor.py`). -/
structure PoseLandmark where
  x : ℚ
  y : ℚ
  z : ℚ
  visibility : ℚ
deriving DecidableEq, Repr

/-- Pose data for a single video frame (`FramePose` in
`mediapipe_extractor.py`); `landmarks` is the name-keyed dict. -/
structure FramePose where
  frame_number : ℤ
  timestamp_ms : ℚ
  landmarks : List (String × PoseLandmark)
  detected : Bool
deriving DecidableEq, Repr

/-- Placeholder frame used to total-ize list indexing that the Python code
only performs at in-bounds indices. -/
def defaultFramePose : FramePose := ⟨0, 0, [], false⟩

/-- Computed biomechanics metrics (`BiomechanicsMetrics` dataclass). Fields
are rationals: the dataclass annotations are not enforced at runtime, and the
feedback engine accepts any numeric record. -/
structure BiomechanicsMetrics where
  reachback_depth_score : ℚ := 0
  hip_rotation_degrees : ℚ := 0
  shoulder_separation_degrees : ℚ := 0
  follow_through_score : ℚ := 0
  weight_shift_score : ℚ := 0
  max_reachback_x : ℚ := 0
  release_point_x : ℚ := 0
  hip_shoulder_timing_ms : ℚ := 0
deriving DecidableEq, Repr

/-- `BiomechanicsMetrics.to_dict`: the five score fields, with the two
degree-valued fields rounded to one decimal place. -/
def BiomechanicsMetrics.to_dict (m : BiomechanicsMetrics) : List (String × ℚ) :=
  [("reachback_depth_score", m.reachback_depth_score),
   ("hip_rotation_degrees", round1 m.hip_rotation_degrees),
   ("shoulder_separation_degrees", round1 m.shoulder_separation_degrees),
   ("follow_through_score", m.follow_through_score),
   ("weight_shift_score", m.weight_shift_score)]

/-- The analyzer configuration (`BiomechanicsAnalyzer.__init__`). -/
structure BiomechanicsAnalyzer where
  handedness : String
deriving DecidableEq, Repr

/-- `self.throwing_wrist`. -/
def BiomechanicsAnalyzer.throwing_wrist (a : BiomechanicsAnalyzer) : String :=
  a.handedness ++ "_wrist"

/-- `self.throwing_shoulder`. -/
def BiomechanicsAnalyzer.throwing_shoulder (a : BiomechanicsAnalyzer) : String :=
  a.handedness ++ "_shoulder"

/-- One iteration of the `_calculate_reachback` loop: track the minimum
throwing-wrist x seen so far and the throwing-shoulder x recorded at the
frame where that minimum was found (the shoulder snapshot is only updated
when the wrist improves the minimum and the shoulder landmark is present). -/
def reachbackStep (a : BiomechanicsAnalyzer) (acc : ℚ × ℚ) (p : FramePose) : ℚ × ℚ :=
  match p.landmarks.lookup a.throwing_wrist with
  | none => acc
  | some w =>
    if w.x < acc.1 then
      (w.x, match p.landmarks.lookup a.throwing_shoulder with
            | some s => s.x
            | none => acc.2)
    else acc

/-- `BiomechanicsAnalyzer._calculate_reachback`: piecewise score of the depth
of the wrist behind the shoulder, clamped to [0, 100]. -/
def BiomechanicsAnalyzer.calculate_reachback (a : BiomechanicsAnalyzer)
    (poses : List FramePose) : ℤ :=
  let st := poses.foldl (reachbackStep a) (1, 1/2)
  let depth := st.2 - st.1
  let score : ℤ :=
    if depth < 0 then 30
    else if depth < 1/10 then pyInt (30 + depth / (1/10) * 30)
    else pyInt (60 + min ((depth - 1/10) / (15/100)) 1 * 40)
  min 100 (max 0 score)

/-- The local `get_hip_angle` of `_calculate_hip_rotation`: angle of the hip
line when both hip landmarks are present. `af` is the degree-valued `arctan2`
of the math library. -/
def getHipAngle (af : ℚ → ℚ → ℚ) (p : FramePose) : Option ℚ :=
  match p.landmarks.lookup "left_hip", p.landmarks.lookup "right_hip" with
  | some l, some r => some (af (r.y - l.y) (r.x - l.x))
  | _, _ => none

/-- `BiomechanicsAnalyzer._calculate_hip_rotation`: absolute difference of
the mean hip-line angle over `angles[0 : len/4 + 1]` and over
`angles[3*len/4 :]`, capped at 90. -/
def BiomechanicsAnalyzer.calculate_hip_rotation (_a : BiomechanicsAnalyzer)
    (af : ℚ → ℚ → ℚ) (poses : List FramePose) : ℚ :=
  if poses.length < 2 then 0
  else
    let angles := poses.filterMap (getHipAngle af)
    if angles.length < 2 then 0
    else
      let early := meanQ (angles.take (angles.length / 4 + 1))
      let late := meanQ (angles.drop (angles.length * 3 / 4))
      min 90 |late - early|

/-- `BiomechanicsAnalyzer._get_line_angle`: angle of the line between two
landmarks, when both are present. -/
def BiomechanicsAnalyzer.get_line_angle (_a : BiomechanicsAnalyzer)
    (af : ℚ → ℚ → ℚ) (p : FramePose) (l1 l2 : String) : Option ℚ :=
  match p.landmarks.lookup l1, p.landmarks.lookup l2 with
  | some p1, some p2 => some (af (p2.y - p1.y) (p2.x - p1.x))
  | _, _ => none

/-- One iteration of the `_calculate_shoulder_separation` loop. -/
def shoulderSepStep (a : BiomechanicsAnalyzer) (af : ℚ → ℚ → ℚ) (ms : ℚ)
    (p : FramePose) : ℚ :=
  match a.get_line_angle af p "left_hip" "right_hip",
        a.get_line_angle af p "left_shoulder" "right_shoulder" with
  | some ha, some sa =>
    let s := |sa - ha|
    max ms (if 90 < s then 180 - s else s)
  | _, _ => ms

/-- `BiomechanicsAnalyzer._calculate_shoulder_separation`: maximum over all
frames of the shoulder/hip line separation, folded into at most 90 by
replacing values above 90 with `180 - separation`. -/
def BiomechanicsAnalyzer.calculate_shoulder_separation (a : BiomechanicsAnalyzer)
    (af : ℚ → ℚ → ℚ) (poses : List FramePose) : ℚ :=
  poses.foldl (shoulderSepStep a af) 0

/-- One iteration of the `_calculate_follow_through` loop: track the maximum
wrist x and the maximum wrist/shoulder horizontal extension. -/
def followThroughStep (a : BiomechanicsAnalyzer) (acc : ℚ × ℚ) (p : FramePose) : ℚ × ℚ :=
  match p.landmarks.lookup a.throwing_wrist with
  | none => acc
  | some w =>
    (max acc.1 w.x,
     match p.landmarks.lookup a.throwing_shoulder with
     | some s => max acc.2 |w.x - s.x|
     | none => acc.2)

/-- `BiomechanicsAnalyzer._calculate_follow_through`: score built from the
final third of the poses, each of the two components capped at 50. -/
def BiomechanicsAnalyzer.calculate_follow_through (a : BiomechanicsAnalyzer)
    (poses : List FramePose) : ℤ :=
  if poses.length < 3 then 50
  else
    let follow := poses.drop (poses.length * 2 / 3)
    let st := follow.foldl (followThroughStep a) (0, 0)
    pyInt (min 50 (st.1 * 60) + min 50 (st.2 * 150))

/-- `BiomechanicsAnalyzer._calculate_weight_shift`: piecewise score of the
hip-center drift from first to last frame, clamped to [0, 100]. -/
def BiomechanicsAnalyzer.calculate_weight_shift (a : BiomechanicsAnalyzer)
    (poses : List FramePose) : ℤ :=
  if poses.length < 2 then 50
  else
    let hip_centers := poses.filterMap (fun p =>
      match p.landmarks.lookup "left_hip", p.landmarks.lookup "right_hip" with
      | some l, some r => some ((l.x + r.x) / 2)
      | _, _ => none)
    if hip_centers.length < 2 then 50
    else
      let total_shift := hip_centers.getLastD 0 - hip_centers.headD 0
      let shift_quality := if a.handedness = "right" then total_shift else -total_shift
      let score : ℤ :=
        if shift_quality < 0 then 30
        else if shift_quality < 5/100 then pyInt (30 + shift_quality / (5/100) * 20)
        else pyInt (50 + min ((shift_quality - 5/100) / (1/10)) 1 * 50)
      min 100 (max 0 score)

/-- `BiomechanicsAnalyzer.analyze`: returns the all-zero metrics when the
pose list is empty or has fewer than 3 detected poses, and otherwise fills
the five score fields from the detected poses. The optional keyframe argument
is accepted and unused, exactly as in the source. -/
def BiomechanicsAnalyzer.analyze (a : BiomechanicsAnalyzer) (af : ℚ → ℚ → ℚ)
    (poses : List FramePose) (_keyframes : Option (List (String × ℤ))) :
    BiomechanicsMetrics :=
  if poses = [] then {}
  else
    let detected_poses := poses.filter (·.detected)
    if detected_poses.length < 3 then {}
    else
      { reachback_depth_score := (a.calculate_reachback detected_poses : ℚ)
        hip_rotation_degrees := a.calculate_hip_rotation af detected_poses
        shoulder_separation_degrees := a.calculate_shoulder_separation af detected_poses
        follow_through_score := (a.calculate_follow_through detected_poses : ℚ)
        weight_shift_score := (a.calculate_weight_shift detected_poses : ℚ) }

/-- The hip-rotation formula exactly as the specification words it: the mean
angle over the first quarter of the valid frames and over the last quarter,
with the symmetric reading that a quarter of `n` frames is `⌈n/4⌉` frames
(which is the number of frames the code uses for the LAST quarter). Stated
from the specification's words, to be compared with
`BiomechanicsAnalyzer.calculate_hip_rotation`. -/
def hipRotationClaimed (angles : List ℚ) : ℚ :=
  min 90 |meanQ (angles.drop (angles.length * 3 / 4)) -
          meanQ (angles.take ((angles.length + 3) / 4))|

/-- Concrete four-frame pose sequence whose hip lines point along the
positive x-axis, the positive y-axis, and the positive x-axis twice more, so
that the hip-line angles are exactly 0°, 90°, 0°, 0°. -/
def fourHipPoses : List FramePose :=
  [⟨0, 0, [("left_hip", ⟨0, 0, 0, 1⟩), ("right_hip", ⟨1, 0, 0, 1⟩)], true⟩,
   ⟨1, 0, [("left_hip", ⟨0, 0, 0, 1⟩), ("right_hip", ⟨0, 1, 0, 1⟩)], true⟩,
   ⟨2, 0, [("left_hip", ⟨0, 0, 0, 1⟩), ("right_hip", ⟨1, 0, 0, 1⟩)], true⟩,
   ⟨3, 0, [("left_hip", ⟨0, 0, 0, 1⟩), ("right_hip", ⟨1, 0, 0, 1⟩)], true⟩]

/-- The per-frame wrist-x signal of `get_keyframe_indices`: the throwing-side
(right) wrist x-coordinate, with 0.5 substituted when the wrist landmark is
missing. -/
def wristXs (dp : List FramePose) : List ℚ :=
  dp.map (fun p =>
    match p.landmarks.lookup "right_wrist" with
    | some w => w.x
    | none => 1/2)

/-- `MediaPipePoseExtractor.get_keyframe_indices`: identify setup, reachback,
release and follow-through frames. Returns the empty map when fewer than 5
poses or fewer than 5 detected poses are available; the release entry is only
present when more than `reachback_idx + 2` wrist samples exist. Entries are
listed in Python dict insertion order. -/
def get_keyframe_indices (poses : List FramePose) : List (String × ℤ) :=
  if poses.length < 5 then []
  else
    let dp := poses.filter (fun p => p.detected)
    if dp.length < 5 then []
    else
      let wx := wristXs dp
      let reachback_idx := npArgmin wx
      let rel : List (String × ℤ) :=
        if reachback_idx + 2 < wx.length then
          let velocities := npDiff (wx.drop reachback_idx)
          let release_idx := min (reachback_idx + npArgmax velocities + 1) (dp.length - 1)
          [("release", (dp.getD release_idx defaultFramePose).frame_number)]
        else []
      [("reachback", (dp.getD reachback_idx defaultFramePose).frame_number),
       ("setup", (dp.getD 0 defaultFramePose).frame_number)] ++ rel ++
      [("follow_through", (dp.getD (dp.length - 1) defaultFramePose).frame_number)]

/-- Concrete five-frame sequence of detected poses whose wrists sit at
x = 0.6 except frame 2, whose wrist landmark is missing entirely (and is
therefore substituted with the neutral x = 0.5, the minimum of the signal). -/
def fiveWristPoses : List FramePose :=
  [⟨0, 0, [("right_wrist", ⟨6/10, 0, 0, 1⟩)], true⟩,
   ⟨1, 0, [("right_wrist", ⟨6/10, 0, 0, 1⟩)], true⟩,
   ⟨2, 0, [], true⟩,
   ⟨3, 0, [("right_wrist", ⟨6/10, 0, 0, 1⟩)], true⟩,
   ⟨4, 0, [("right_wrist", ⟨6/10, 0, 0, 1⟩)], true⟩]

/-- Concrete five-frame sequence of detected poses with one wrist sample
(frame 3, x = 0.3) strictly below the neutral 0.5 substitution value. -/
def fiveWristPoses2 : List FramePose :=
  [⟨0, 0, [("right_wrist", ⟨6/10, 0, 0, 1⟩)], true⟩,
   ⟨1, 0, [("right_wrist", ⟨55/100, 0, 0, 1⟩)], true⟩,
   ⟨2, 0, [], true⟩,
   ⟨3, 0, [("right_wrist", ⟨3/10, 0, 0, 1⟩)], true⟩,
   ⟨4, 0, [("right_wrist", ⟨6/10, 0, 0, 1⟩)], true⟩]

/-- Python `str.endswith`. -/
def strEndsWith (s suffix : String) : Bool := suffix.data.isSuffixOf s.data

/-- Structured feedback from pose analysis (`PoseFeedback` dataclass). -/
structure PoseFeedback where
  pose_tips : List String
  priority_focus : String
  strengths : List String
  overall_score : ℤ
deriving DecidableEq, Repr

/-- One row of the `FEEDBACK_RULES` table. -/
structure FeedbackRule where
  metric_name : String
  threshold_low : ℚ
  threshold_high : ℚ
  feedback_if_low : String
  feedback_if_good : String
deriving DecidableEq, Repr

/-- The fixed `FEEDBACK_RULES` table of `feedback_rules.py`. -/
def FEEDBACK_RULES : List FeedbackRule :=
  [⟨"reachback_depth_score", 50, 75,
    "Extend your reachback further - try to get your throwing hand behind your rear shoulder.",
    "Good reachback extension - you're creating space for acceleration."⟩,
   ⟨"hip_rotation_degrees", 30, 45,
    "Rotate your hips more during the throw. Lead with your hips, not your arm.",
    "Good hip rotation - you're generating power from your lower body."⟩,
   ⟨"shoulder_separation_degrees", 25, 40,
    "Create more separation between your shoulders and hips. Keep shoulders closed longer.",
    "Good shoulder-hip separation - you're building torque effectively."⟩,
   ⟨"follow_through_score", 50, 75,
    "Follow through more completely. Let your arm continue across your body after release.",
    "Good follow-through - you're completing the throwing motion."⟩,
   ⟨"weight_shift_score", 50, 75,
    "Shift your weight more decisively from back foot to front foot during the throw.",
    "Good weight transfer - you're driving power through your legs."⟩]

/-- The fixed `PRIORITY_ORDER` of areas to focus on. -/
def PRIORITY_ORDER : List String :=
  ["hip_rotation_degrees", "reachback_depth_score", "shoulder_separation_degrees",
   "weight_shift_score", "follow_through_score"]

/-- `FeedbackGenerator.__init__`: threshold multiplier for a skill level, with
the dict-lookup default of 1.0 for unknown levels. -/
def thresholdMultiplier (skill_level : String) : ℚ :=
  if skill_level = "beginner" then 8/10
  else if skill_level = "intermediate" then 1
  else if skill_level = "advanced" then 115/100
  else 1

/-- One iteration of the rule loop in `generate_feedback`: the accumulator is
(tips, strengths, metric_scores); rules whose metric name is absent from the
metrics dict are skipped. -/
def feedbackStep (mult : ℚ) (md : List (String × ℚ))
    (acc : List String × List String × List (String × String))
    (r : FeedbackRule) : List String × List String × List (String × String) :=
  (md.lookup r.metric_name).elim acc (fun value =>
    if value < r.threshold_low * mult then
      (acc.1 ++ [r.feedback_if_low], acc.2.1, acc.2.2 ++ [(r.metric_name, "low")])
    else if r.threshold_high * mult ≤ value then
      (acc.1, acc.2.1 ++ [r.feedback_if_good], acc.2.2 ++ [(r.metric_name, "high")])
    else
      (acc.1, acc.2.1, acc.2.2 ++ [(r.metric_name, "medium")]))

/-- The full rule loop of `generate_feedback` over `FEEDBACK_RULES`. -/
def feedbackScan (mult : ℚ) (md : List (String × ℚ)) :
    List String × List String × List (String × String) :=
  FEEDBACK_RULES.foldl (feedbackStep mult md) ([], [], [])

/-- The `metric_scores` classification produced by the rule loop for a given
skill level and metrics record. -/
def metricStatuses (skill_level : String) (m : BiomechanicsMetrics) :
    List (String × String) :=
  (feedbackScan (thresholdMultiplier skill_level) m.to_dict).2.2

/-- The strengths list produced by the rule loop (before the final cap). -/
def scanStrengths (skill_level : String) (m : BiomechanicsMetrics) : List String :=
  (feedbackScan (thresholdMultiplier skill_level) m.to_dict).2.1

/-- `FeedbackGenerator._metric_to_focus_area`. -/
def metric_to_focus_area (metric_name : String) : String :=
  if metric_name = "reachback_depth_score" then "reachback"
  else if metric_name = "hip_rotation_degrees" then "hip_rotation"
  else if metric_name = "shoulder_separation_degrees" then "x_factor"
  else if metric_name = "follow_through_score" then "follow_through"
  else if metric_name = "weight_shift_score" then "weight_transfer"
  else metric_name

/-- `FeedbackGenerator._determine_priority`: first low-scoring metric in
priority order; otherwise the metric with the smallest normalized value
(degree metrics doubled and capped at 100); `timing` as a last resort.
A found name is tested by Python truthiness before use (empty string falsy). -/
def determine_priority (metric_scores : List (String × String))
    (md : List (String × ℚ)) : String :=
  (PRIORITY_ORDER.find? (fun metric => metric_scores.lookup metric == some "low")).elim
    (let st := PRIORITY_ORDER.foldl (fun (acc : Option String × Option ℚ) metric =>
      (md.lookup metric).elim acc (fun value0 =>
        let value := if strEndsWith metric "_degrees" then min 100 (value0 * 2) else value0
        acc.2.elim (some metric, some value) (fun lowest_value =>
          if value < lowest_value then (some metric, some value) else acc))) (none, none)
    st.1.elim "timing" (fun nm => if nm = "" then "timing" else metric_to_focus_area nm))
    (fun metric => metric_to_focus_area metric)

/-- The fixed weight table of `_calculate_overall_score`, in dict order. -/
def overallWeights : List (String × ℚ) :=
  [("reachback_depth_score", 20/100), ("hip_rotation_degrees", 25/100),
   ("shoulder_separation_degrees", 20/100), ("follow_through_score", 15/100),
   ("weight_shift_score", 20/100)]

/-- `FeedbackGenerator._calculate_overall_score`: weighted average with
degree metrics normalized by their reference maxima. -/
def calculate_overall_score (metrics : BiomechanicsMetrics) : ℤ :=
  let md := metrics.to_dict
  let st := overallWeights.foldl (fun (acc : ℚ × ℚ) wm =>
    (md.lookup wm.1).elim acc (fun v0 =>
      let value := if wm.1 = "hip_rotation_degrees" then min 100 (v0 / 60 * 100)
        else if wm.1 = "shoulder_separation_degrees" then min 100 (v0 / 45 * 100)
        else v0
      (acc.1 + value * wm.2, acc.2 + wm.2))) (0, 0)
  if 0 < st.2 then pyInt (st.1 / st.2) else 50

/-- `FeedbackGenerator.generate_feedback`: run the rule loop, pick the
priority focus, compute the overall score, fall back to one generic
tip/strength when a list is empty, and cap tips at 4 and strengths at 3. -/
def generate_feedback (skill_level : String) (metrics : BiomechanicsMetrics) :
    PoseFeedback :=
  let mult := thresholdMultiplier skill_level
  let md := metrics.to_dict
  let st := feedbackScan mult md
  let tips := if st.1 = [] then
      ["Your form looks solid. Focus on consistency and timing."] else st.1
  let strengths := if st.2.1 = [] then
      ["Keep working on your fundamentals."] else st.2.1
  { pose_tips := tips.take 4,
    priority_focus := determine_priority st.2.2 md,
    strengths := strengths.take 3,
    overall_score := calculate_overall_score metrics }

/-- The classification a single feedback rule row gives to a metrics-dict
value: the `low`/`high`/`medium` branch structure of the rule loop. -/
def classifyValue (mult value lo hi : ℚ) : String :=
  if value < lo * mult then "low"
  else if hi * mult ≤ value then "high"
  else "medium"

/-- The raw (pre-`to_dict` rounding) field of a metrics record addressed by
rule name. -/
def rawMetricValue (m : BiomechanicsMetrics) (name : String) : ℚ :=
  if name = "reachback_depth_score" then m.reachback_depth_score
  else if name = "hip_rotation_degrees" then m.hip_rotation_degrees
  else if name = "shoulder_separation_degrees" then m.shoulder_separation_degrees
  else if name = "follow_through_score" then m.follow_through_score
  else if name = "weight_shift_score" then m.weight_shift_score
  else 0

/-- The hip-rotation row of `FEEDBACK_RULES`, named for concrete theorems. -/
def hipRule : FeedbackRule :=
  ⟨"hip_rotation_degrees", 30, 45,
   "Rotate your hips more during the throw. Lead with your hips, not your arm.",
   "Good hip rotation - you're generating power from your lower body."⟩

/-- A metrics record whose hip rotation sits exactly on the intermediate high
threshold. -/
def m45 : BiomechanicsMetrics := { hip_rotation_degrees := 45 }

/-- A detected key moment of `identify_key_moments` in `form_metrics.py`:
the `frame`/`elbow_angle` entry dict. -/
structure KeyMoment where
  frame : ℚ
  elbow_angle : ℚ
deriving DecidableEq, Repr

/-- The key-moments map of `identify_key_moments`: both keys are optional. -/
structure KeyMoments where
  reach_back : Option KeyMoment := none
  release : Option KeyMoment := none
deriving DecidableEq, Repr

/-- `identify_key_moments` of `form_metrics.py`: reach-back at the global
minimum of the elbow-angle series; release at the frame following the index
of maximum absolute second difference of the elbow angles strictly after the
reach-back frame, requiring strictly more than 10 post-reach-back samples and
an in-bounds index, and a nonempty reach-back-extension series. -/
def identify_key_moments (metrics : List (String × List (ℚ × ℚ))) : KeyMoments :=
  let reach_back : Option KeyMoment :=
    match metrics.lookup "elbow_angle" with
    | some es =>
      if es = [] then none
      else
        let frames := es.map (fun m => m.1)
        let angles := es.map (fun m => m.2)
        let min_angle_idx := npArgmin angles
        some ⟨frames.getD min_angle_idx 0, angles.getD min_angle_idx 0⟩
    | none => none
  let release : Option KeyMoment :=
    match metrics.lookup "elbow_angle", metrics.lookup "reach_back_extension" with
    | some es, some rs =>
      if es = [] ∨ rs = [] then none
      else
        let reach_back_frame := (reach_back.map KeyMoment.frame).getD 0
        let elbow_data := (es.filter (fun m => reach_back_frame < m.1)).mergeSort
          (fun a b => a.1 < b.1 ∨ (a.1 = b.1 ∧ a.2 ≤ b.2))
        if 10 < elbow_data.length then
          let frames := elbow_data.map (fun m => m.1)
          let angles := elbow_data.map (fun m => m.2)
          let angle_diffs := npDiff angles
          let angle_accel := npDiff angle_diffs
          if angle_accel = [] then none
          else
            let max_accel_idx := npArgmax (angle_accel.map (fun q => |q|))
            if max_accel_idx < frames.length - 2 then
              some ⟨frames.getD (max_accel_idx + 1) 0, angles.getD (max_accel_idx + 1) 0⟩
            else none
        else none
    | _, _ => none
  ⟨reach_back, release⟩

/-- An elbow-angle series with its minimum at frame 0 and exactly 10 samples
strictly after frame 0. -/
def elbowSeries10 : List (ℚ × ℚ) :=
  [(0, 10), (1, 20), (2, 21), (3, 22), (4, 23), (5, 24), (6, 25), (7, 26),
   (8, 27), (9, 28), (10, 29)]

/-- A metrics map whose elbow-angle series has its minimum at frame 0 and
EXACTLY 10 samples strictly after the reach-back frame, with a nonempty
reach-back-extension series. -/
def elbowMetrics10 : List (String × List (ℚ × ℚ)) :=
  [("elbow_angle", elbowSeries10), ("reach_back_extension", [(0, 1)])]

/-- An elbow-angle series with its minimum at frame 0 and 11 samples strictly
after frame 0. -/
def elbowSeries11 : List (ℚ × ℚ) :=
  [(0, 10), (1, 20), (2, 21), (3, 22), (4, 23), (5, 24), (6, 25), (7, 26),
   (8, 27), (9, 28), (10, 29), (11, 50)]

/-- Like `elbowMetrics10` but with 11 samples strictly after the reach-back
frame, enough for the release heuristic to fire. -/
def elbowMetrics11 : List (String × List (ℚ × ℚ)) :=
  [("elbow_angle", elbowSeries11), ("reach_back_extension", [(0, 1)])]

/-- Python floor division on rationals (`//`). -/
def pyFloorDiv (a b : ℚ) : ℚ := ((⌊a / b⌋ : ℤ) : ℚ)

/-- Python truthiness of an optional numeric value: `None` and `0` are both
falsy, any other number is truthy. -/
def optTruthy (o : Option ℚ) : Bool := decide (o.getD 0 ≠ 0)

/-- One named phase of `identify_throw_phases`: a frame range and a snapshot
of each metric's value at the phase's defining frame. -/
structure Phase where
  frame_range : ℚ × ℚ := (0, 0)
  key_metrics : List (String × ℚ) := []
deriving DecidableEq, Repr

/-- The four named phases of `identify_throw_phases`. -/
structure ThrowPhases where
  reach_back : Phase := {}
  pull_through : Phase := {}
  release : Phase := {}
  follow_through : Phase := {}
deriving DecidableEq, Repr

/-- The metrics argument of `identify_throw_phases`: the per-metric time
series plus the `key_moments` entry of the same Python dict, modelled as two
fields because the dict is heterogeneous. -/
structure FormMetrics where
  series : List (String × List (ℚ × ℚ))
  key_moments : KeyMoments
deriving DecidableEq, Repr

/-- The `all_frames` accumulation of `identify_throw_phases`: every frame of
every nonempty non-`key_moments` series, in iteration order. -/
def allFrames (m : FormMetrics) : List ℚ :=
  m.series.foldl (fun acc nv =>
    if nv.1 ≠ "key_moments" ∧ nv.2 ≠ [] then acc ++ nv.2.map (fun v => v.1)
    else acc) []

/-- The key-metric snapshot at a frame: for each non-`key_moments` series,
the value of its first sample whose frame equals `f`, when one exists. -/
def keyMetricsAt (series : List (String × List (ℚ × ℚ))) (f : ℚ) :
    List (String × ℚ) :=
  series.filterMap (fun nv =>
    if nv.1 ≠ "key_moments" then
      (nv.2.find? (fun v => v.1 == f)).map (fun v => (nv.1, v.2))
    else none)

/-- `identify_throw_phases` of `pro_form_analyzer.py`. Key moments are tested
by Python truthiness (`if reach_back_frame:`), so a frame number of 0 counts
as undetected; when neither moment is truthy the phases fall back to an even
quartile split of the frame range. -/
def identify_throw_phases (m : FormMetrics) : ThrowPhases :=
  let init : ThrowPhases := {}
  let af := allFrames m
  if af = [] then init
  else
    let min_frame := pyListMin af
    let max_frame := pyListMax af
    let rbOpt := m.key_moments.reach_back.map KeyMoment.frame
    let relOpt := m.key_moments.release.map KeyMoment.frame
    let p1 := if optTruthy rbOpt then
        let rbf := rbOpt.getD 0
        { init with reach_back :=
            ⟨(max min_frame (rbf - 15), rbf), keyMetricsAt m.series rbf⟩ }
      else init
    let p2 := if optTruthy relOpt then
        let rf := relOpt.getD 0
        let p := { p1 with
          release := ⟨(rf - 5, rf + 5), keyMetricsAt m.series rf⟩,
          follow_through := ⟨(rf + 5, max_frame), p1.follow_through.key_metrics⟩ }
        if optTruthy rbOpt then
          { p with pull_through := ⟨(rbOpt.getD 0, rf - 5), p.pull_through.key_metrics⟩ }
        else p
      else p1
    if ¬ optTruthy rbOpt ∧ ¬ optTruthy relOpt then
      let total_frames := max_frame - min_frame
      let quarter := pyFloorDiv total_frames 4
      { p2 with
        reach_back := ⟨(min_frame, min_frame + quarter), p2.reach_back.key_metrics⟩,
        pull_through := ⟨(min_frame + quarter, min_frame + 2 * quarter),
          p2.pull_through.key_metrics⟩,
        release := ⟨(min_frame + 2 * quarter, min_frame + 3 * quarter),
          p2.release.key_metrics⟩,
        follow_through := ⟨(min_frame + 3 * quarter, max_frame),
          p2.follow_through.key_metrics⟩ }
    else p2

/-- A concrete metrics record whose reach-back moment was detected at
frame 0 and whose release moment is undetected. -/
def zeroFrameMetrics : FormMetrics :=
  ⟨[("elbow_angle", [(0, 10), (4, 20)])], ⟨some ⟨0, 10⟩, none⟩⟩

/-- A persisted pro model as `compare_with_pro` reads it: identity plus the
full metric time-series map. -/
structure ProModel where
  pro_name : String
  throw_type : String
  metrics : List (String × List (ℚ × ℚ))
deriving DecidableEq, Repr

/-- The result record of `compare_with_pro`. -/
structure ComparisonResult where
  pro_name : String
  throw_type : String
  overall_similarity : ℚ
  metric_similarities : List (String × ℚ)
deriving DecidableEq, Repr

/-- The metric names `compare_with_pro` treats as angles (normalized by 180°). -/
def angleMetricNames : List String :=
  ["shoulder_rotation", "hip_rotation", "elbow_angle", "wrist_angle"]

/-- `scipy.interpolate.interp1d` with `fill_value="extrapolate"`: piecewise
linear interpolation through the given knots, extrapolating with the first
segment below the range and with the last segment above it. -/
def interpLinear : List (ℚ × ℚ) → ℚ → ℚ
  | [], _ => 0
  | [(_, y)], _ => y
  | [(x1, y1), (x2, y2)], t => y1 + (y2 - y1) * (t - x1) / (x2 - x1)
  | (x1, y1) :: (x2, y2) :: p3 :: rest, t =>
      if t ≤ x2 then y1 + (y2 - y1) * (t - x1) / (x2 - x1)
      else interpLinear ((x2, y2) :: p3 :: rest) t

/-- `np.mean(np.abs(a - b))` for two equal-length vectors. -/
def meanAbsDiff (a b : List ℚ) : ℚ :=
  meanQ ((a.zip b).map (fun p => |p.1 - p.2|))

/-- The per-metric similarity of `compare_with_pro`: angle metrics are
normalized by 180, disc speed by the maximum pro speed, and everything else
by the combined min-max range of both series (similarity 1 when that range is
zero). -/
def metricSimilarity (name : String) (user_values pro_values pvi : List ℚ) : ℚ :=
  if name ∈ angleMetricNames then 1 - meanAbsDiff user_values pvi / 180
  else if name = "disc_speed" then 1 - meanAbsDiff user_values pvi / pyListMax pro_values
  else
    let max_val := max (pyListMax user_values) (pyListMax pro_values)
    let min_val := min (pyListMin user_values) (pyListMin pro_values)
    if min_val < max_val then 1 - meanAbsDiff user_values pvi / (max_val - min_val)
    else 1

/-- One iteration of the metric loop of `compare_with_pro`. The accumulator
is (similarity_scores, overall_similarity so far, metric_count). -/
def compareStep (proMetrics : List (String × List (ℚ × ℚ)))
    (acc : List (String × ℚ) × ℚ × ℕ) (entry : String × List (ℚ × ℚ)) :
    List (String × ℚ) × ℚ × ℕ :=
  if entry.1 = "key_moments" ∨ entry.2 = [] then acc
  else
    match proMetrics.lookup entry.1 with
    | none => acc
    | some ps =>
      if ps = [] then acc
      else
        let user_frames := entry.2.map (fun v => v.1)
        let user_values := entry.2.map (fun v => v.2)
        let pro_frames := ps.map (fun v => v.1)
        let pro_values := ps.map (fun v => v.2)
        let user_frames_norm := user_frames.map (fun f => f / pyListMax user_frames)
        let pro_frames_norm := pro_frames.map (fun f => f / pyListMax pro_frames)
        if 1 < pro_frames_norm.length then
          let pro_values_interp := user_frames_norm.map
            (interpLinear (pro_frames_norm.zip pro_values))
          let s := max 0 (min 1
            (metricSimilarity entry.1 user_values pro_values pro_values_interp))
          (acc.1 ++ [(entry.1, s)], acc.2.1 + s, acc.2.2 + 1)
        else acc

/-- `compare_with_pro` of `pro_form_analyzer.py`: fold the metric loop over
the user metrics and divide the accumulated similarity by the metric count
when it is positive. -/
def compare_with_pro (user_metrics : List (String × List (ℚ × ℚ)))
    (pro_model : ProModel) : ComparisonResult :=
  let st := user_metrics.foldl (compareStep pro_model.metrics) ([], 0, 0)
  { pro_name := pro_model.pro_name,
    throw_type := pro_model.throw_type,
    overall_similarity := if 0 < st.2.2 then st.2.1 / (st.2.2 : ℚ) else st.2.1,
    metric_similarities := st.1 }

/-- A one-metric user record for concrete similarity theorems. -/
def userMetricsOne : List (String × List (ℚ × ℚ)) :=
  [("elbow_angle", [(0, 10), (1, 20)])]

/-! ### Helper lemmas -/

theorem clampInt_bounds (s : ℤ) :
    0 ≤ min 100 (max 0 s) ∧ min 100 (max 0 s) ≤ 100 :=
  ⟨le_min (by norm_num) (le_max_left 0 s), min_le_left _ _⟩

theorem ite50_bounds (c : Prop) [Decidable c] (x : ℤ) (hx : 0 ≤ x ∧ x ≤ 100) :
    0 ≤ (if c then 50 else x) ∧ (if c then 50 else x) ≤ 100 := by
  split_ifs
  · norm_num
  · exact hx

theorem pyInt_nonneg {q : ℚ} (h : 0 ≤ q) : 0 ≤ pyInt q := by
  unfold pyInt
  rw [if_pos h]
  exact Int.le_floor.mpr (by exact_mod_cast h)

theorem pyInt_le_of_le {q : ℚ} {n : ℤ} (h0 : 0 ≤ q) (h : q ≤ (n : ℚ)) :
    pyInt q ≤ n := by
  unfold pyInt
  rw [if_pos h0]
  have := Int.floor_le_floor h
  rwa [Int.floor_intCast] at this

theorem shoulderSepStep_bounds (a : BiomechanicsAnalyzer) (af : ℚ → ℚ → ℚ)
    (p : FramePose) {ms : ℚ} (h0 : 0 ≤ ms) (h90 : ms ≤ 90) :
    0 ≤ shoulderSepStep a af ms p ∧ shoulderSepStep a af ms p ≤ 90 := by
  unfold shoulderSepStep
  cases a.get_line_angle af p "left_hip" "right_hip" with
  | none => exact ⟨h0, h90⟩
  | some ha =>
    cases a.get_line_angle af p "left_shoulder" "right_shoulder" with
    | none => exact ⟨h0, h90⟩
    | some sa =>
      refine ⟨le_trans h0 (le_max_left _ _), max_le h90 ?_⟩
      split_ifs with hgt
      · linarith
      · linarith

theorem shoulderFold_bounds (a : BiomechanicsAnalyzer) (af : ℚ → ℚ → ℚ)
    (l : List FramePose) :
    ∀ init : ℚ, 0 ≤ init → init ≤ 90 →
      0 ≤ l.foldl (shoulderSepStep a af) init ∧
      l.foldl (shoulderSepStep a af) init ≤ 90 := by
  induction l with
  | nil => intro init h0 h90; exact ⟨h0, h90⟩
  | cons p t ih =>
    intro init h0 h90
    have hstep := shoulderSepStep_bounds a af p h0 h90
    exact ih _ hstep.1 hstep.2

theorem followFold_nonneg (a : BiomechanicsAnalyzer) (l : List FramePose) :
    ∀ acc : ℚ × ℚ, 0 ≤ acc.1 → 0 ≤ acc.2 →
      0 ≤ (l.foldl (followThroughStep a) acc).1 ∧
      0 ≤ (l.foldl (followThroughStep a) acc).2 := by
  induction l with
  | nil => intro acc h1 h2; exact ⟨h1, h2⟩
  | cons p t ih =>
    intro acc h1 h2
    apply ih
    · unfold followThroughStep
      cases p.landmarks.lookup a.throwing_wrist with
      | none => exact h1
      | some w => exact le_trans h1 (le_max_left _ _)
    · unfold followThroughStep
      cases p.landmarks.lookup a.throwing_wrist with
      | none => exact h2
      | some w =>
        cases p.landmarks.lookup a.throwing_shoulder with
        | none => exact h2
        | some s => exact le_trans h2 (le_max_left _ _)

theorem calculate_reachback_bounds (a : BiomechanicsAnalyzer)
    (poses : List FramePose) :
    0 ≤ a.calculate_reachback poses ∧ a.calculate_reachback poses ≤ 100 := by
  unfold BiomechanicsAnalyzer.calculate_reachback
  exact clampInt_bounds _

theorem calculate_hip_rotation_bounds (a : BiomechanicsAnalyzer)
    (af : ℚ → ℚ → ℚ) (poses : List FramePose) :
    0 ≤ a.calculate_hip_rotation af poses ∧
    a.calculate_hip_rotation af poses ≤ 90 := by
  unfold BiomechanicsAnalyzer.calculate_hip_rotation
  dsimp only
  split_ifs with h1 h2
  · norm_num
  · norm_num
  · exact ⟨le_min (by norm_num) (abs_nonneg _), min_le_left _ _⟩

theorem calculate_shoulder_separation_bounds (a : BiomechanicsAnalyzer)
    (af : ℚ → ℚ → ℚ) (poses : List FramePose) :
    0 ≤ a.calculate_shoulder_separation af poses ∧
    a.calculate_shoulder_separation af poses ≤ 90 := by
  unfold BiomechanicsAnalyzer.calculate_shoulder_separation
  exact shoulderFold_bounds a af poses 0 le_rfl (by norm_num)

theorem calculate_follow_through_bounds (a : BiomechanicsAnalyzer)
    (poses : List FramePose) :
    0 ≤ a.calculate_follow_through poses ∧
    a.calculate_follow_through poses ≤ 100 := by
  unfold BiomechanicsAnalyzer.calculate_follow_through
  split_ifs
  · norm_num
  · have h := followFold_nonneg a (poses.drop (poses.length * 2 / 3))
      ((0:ℚ), (0:ℚ)) le_rfl le_rfl
    set st := (poses.drop (poses.length * 2 / 3)).foldl (followThroughStep a)
      ((0:ℚ), (0:ℚ)) with hstdef
    have ha : (0:ℚ) ≤ min 50 (st.1 * 60) :=
      le_min (by norm_num) (mul_nonneg h.1 (by norm_num))
    have hb : (0:ℚ) ≤ min 50 (st.2 * 150) :=
      le_min (by norm_num) (mul_nonneg h.2 (by norm_num))
    have ha' := min_le_left (50:ℚ) (st.1 * 60)
    have hb' := min_le_left (50:ℚ) (st.2 * 150)
    constructor
    · exact pyInt_nonneg (by linarith)
    · exact pyInt_le_of_le (by linarith) (by push_cast; linarith)

theorem calculate_weight_shift_bounds (a : BiomechanicsAnalyzer)
    (poses : List FramePose) :
    0 ≤ a.calculate_weight_shift poses ∧ a.calculate_weight_shift poses ≤ 100 := by
  unfold BiomechanicsAnalyzer.calculate_weight_shift
  dsimp only
  exact ite50_bounds _ _ (ite50_bounds _ _ (clampInt_bounds _))

/-! ### Claim theorems -/

/-- C1: for every input pose sequence (including adversarial ones), the
metrics returned by `BiomechanicsAnalyzer.analyze` satisfy
`reachback_depth_score`, `follow_through_score`, `weight_shift_score`
∈ [0, 100] and `hip_rotation_degrees`, `shoulder_separation_degrees`
∈ [0, 90], for every handedness and every angle function. -/
theorem c1_metric_ranges (a : BiomechanicsAnalyzer) (af : ℚ → ℚ → ℚ)
    (poses : List FramePose) (kf : Option (List (String × ℤ))) :
    (0 ≤ (a.analyze af poses kf).reachback_depth_score ∧
       (a.analyze af poses kf).reachback_depth_score ≤ 100) ∧
    (0 ≤ (a.analyze af poses kf).follow_through_score ∧
       (a.analyze af poses kf).follow_through_score ≤ 100) ∧
    (0 ≤ (a.analyze af poses kf).weight_shift_score ∧
       (a.analyze af poses kf).weight_shift_score ≤ 100) ∧
    (0 ≤ (a.analyze af poses kf).hip_rotation_degrees ∧
       (a.analyze af poses kf).hip_rotation_degrees ≤ 90) ∧
    (0 ≤ (a.analyze af poses kf).shoulder_separation_degrees ∧
       (a.analyze af poses kf).shoulder_separation_degrees ≤ 90) := by
  unfold BiomechanicsAnalyzer.analyze
  dsimp only
  split_ifs
  · norm_num
  · norm_num
  · dsimp only
    obtain ⟨hr1, hr2⟩ := calculate_reachback_bounds a (poses.filter (fun p => p.detected))
    obtain ⟨hf1, hf2⟩ := calculate_follow_through_bounds a (poses.filter (fun p => p.detected))
    obtain ⟨hw1, hw2⟩ := calculate_weight_shift_bounds a (poses.filter (fun p => p.detected))
    obtain ⟨hh1, hh2⟩ := calculate_hip_rotation_bounds a af (poses.filter (fun p => p.detected))
    obtain ⟨hs1, hs2⟩ := calculate_shoulder_separation_bounds a af (poses.filter (fun p => p.detected))
    refine ⟨⟨?_, ?_⟩, ⟨?_, ?_⟩, ⟨?_, ?_⟩, ⟨hh1, hh2⟩, ⟨hs1, hs2⟩⟩
    · exact_mod_cast hr1
    · exact_mod_cast hr2
    · exact_mod_cast hf1
    · exact_mod_cast hf2
    · exact_mod_cast hw1
    · exact_mod_cast hw2

/-- C2: whenever fewer than 3 poses are detected, `analyze` returns the
all-zero `BiomechanicsMetrics` (the embedding is a total function, so no
exception is possible on this input class). -/
theorem c2_insufficient_detected (a : BiomechanicsAnalyzer) (af : ℚ → ℚ → ℚ)
    (poses : List FramePose) (kf : Option (List (String × ℤ)))
    (h : (poses.filter (fun p => p.detected)).length < 3) :
    a.analyze af poses kf = {} := by
  unfold BiomechanicsAnalyzer.analyze
  dsimp only
  split_ifs with h1
  · rfl
  · rfl

theorem c2_insufficient_detected_witness :
    (([] : List FramePose).filter (fun p => p.detected)).length < 3 ∧
    (⟨"right"⟩ : BiomechanicsAnalyzer).analyze atan2deg [] none = {} :=
  ⟨by simp, c2_insufficient_detected _ _ _ _ (by simp)⟩

theorem analyze_hip_rotation_degrees (a : BiomechanicsAnalyzer) (af : ℚ → ℚ → ℚ)
    (poses : List FramePose) (kf : Option (List (String × ℤ)))
    (h3 : 3 ≤ (poses.filter (fun p => p.detected)).length) :
    (a.analyze af poses kf).hip_rotation_degrees =
      a.calculate_hip_rotation af (poses.filter (fun p => p.detected)) := by
  have hne : poses ≠ [] := by
    intro hempty
    rw [hempty] at h3
    simp at h3
  unfold BiomechanicsAnalyzer.analyze
  dsimp only
  rw [if_neg hne, if_neg (by omega)]

theorem calculate_hip_rotation_eq (a : BiomechanicsAnalyzer) (af : ℚ → ℚ → ℚ)
    (poses : List FramePose)
    (h2 : 2 ≤ (poses.filterMap (getHipAngle af)).length) :
    a.calculate_hip_rotation af poses =
      min 90
        |meanQ ((poses.filterMap (getHipAngle af)).drop
            ((poses.filterMap (getHipAngle af)).length * 3 / 4)) -
         meanQ ((poses.filterMap (getHipAngle af)).take
            ((poses.filterMap (getHipAngle af)).length / 4 + 1))| := by
  have hlen := List.length_filterMap_le (getHipAngle af) poses
  unfold BiomechanicsAnalyzer.calculate_hip_rotation
  dsimp only
  rw [if_neg (by omega), if_neg (by omega)]

/-- C9 (amended): for a pose sequence with at least 3 detected poses of which
at least 2 carry both hip landmarks, `hip_rotation_degrees` equals the
absolute difference between the mean hip-line angle over the first
`⌊n/4⌋ + 1` valid frames (one more frame than an exact first quarter) and the
mean over the last `⌈n/4⌉` valid frames, capped at 90 degrees. -/
theorem c9_hip_rotation_amended (a : BiomechanicsAnalyzer) (af : ℚ → ℚ → ℚ)
    (poses : List FramePose) (kf : Option (List (String × ℤ)))
    (h3 : 3 ≤ (poses.filter (fun p => p.detected)).length)
    (h2 : 2 ≤ ((poses.filter (fun p => p.detected)).filterMap (getHipAngle af)).length) :
    (a.analyze af poses kf).hip_rotation_degrees =
      min 90
        |meanQ (((poses.filter (fun p => p.detected)).filterMap (getHipAngle af)).drop
            (((poses.filter (fun p => p.detected)).filterMap (getHipAngle af)).length * 3 / 4)) -
         meanQ (((poses.filter (fun p => p.detected)).filterMap (getHipAngle af)).take
            (((poses.filter (fun p => p.detected)).filterMap (getHipAngle af)).length / 4 + 1))| := by
  rw [analyze_hip_rotation_degrees a af poses kf h3,
    calculate_hip_rotation_eq a af _ h2]

theorem fourHipPoses_angles :
    fourHipPoses.filterMap (getHipAngle atan2deg) = [0, 90, 0, 0] := by
  simp [fourHipPoses, getHipAngle, atan2deg, List.lookup]

theorem c9_hip_rotation_amended_witness :
    3 ≤ (fourHipPoses.filter (fun p => p.detected)).length ∧
    2 ≤ ((fourHipPoses.filter (fun p => p.detected)).filterMap (getHipAngle atan2deg)).length ∧
    ((⟨"right"⟩ : BiomechanicsAnalyzer).analyze atan2deg fourHipPoses none).hip_rotation_degrees =
      min 90
        |meanQ (((fourHipPoses.filter (fun p => p.detected)).filterMap (getHipAngle atan2deg)).drop
            (((fourHipPoses.filter (fun p => p.detected)).filterMap (getHipAngle atan2deg)).length * 3 / 4)) -
         meanQ (((fourHipPoses.filter (fun p => p.detected)).filterMap (getHipAngle atan2deg)).take
            (((fourHipPoses.filter (fun p => p.detected)).filterMap (getHipAngle atan2deg)).length / 4 + 1))| := by
  have hf : fourHipPoses.filter (fun p => p.detected) = fourHipPoses := rfl
  refine ⟨by rw [hf]; norm_num [fourHipPoses], ?_, ?_⟩
  · rw [hf, fourHipPoses_angles]; norm_num
  · exact c9_hip_rotation_amended _ _ _ _
      (by rw [hf]; norm_num [fourHipPoses])
      (by rw [hf, fourHipPoses_angles]; norm_num)

/-- C9 (counterexample): on `fourHipPoses` the analyzer's hip rotation is 45
(the "early" window of `angles[0 : n/4 + 1]` spans half of the four frames),
while the claim's first-quarter/last-quarter formula gives 0. -/
theorem c9_counterexample :
    ((⟨"right"⟩ : BiomechanicsAnalyzer).analyze atan2deg fourHipPoses none).hip_rotation_degrees ≠
      hipRotationClaimed (fourHipPoses.filterMap (getHipAngle atan2deg)) := by
  have hf : fourHipPoses.filter (fun p => p.detected) = fourHipPoses := rfl
  rw [analyze_hip_rotation_degrees _ _ _ _ (by rw [hf]; norm_num [fourHipPoses]),
    hf, calculate_hip_rotation_eq _ _ _ (by rw [fourHipPoses_angles]; norm_num),
    fourHipPoses_angles]
  unfold hipRotationClaimed
  norm_num [meanQ]

theorem argminAcc_spec (rest : List ℚ) : ∀ (bi i : ℕ) (bv : ℚ),
    (argminAcc bi bv i rest = bi ∧ ∀ v ∈ rest, bv ≤ v) ∨
    (∃ j, j < rest.length ∧ argminAcc bi bv i rest = i + j ∧
      rest.getD j 0 < bv ∧ ∀ k, k < rest.length → rest.getD j 0 ≤ rest.getD k 0) := by
  induction rest with
  | nil =>
    intro bi i bv
    left
    exact ⟨rfl, by simp⟩
  | cons v t ih =>
    intro bi i bv
    by_cases hv : v < bv
    · right
      rcases ih i (i + 1) v with ⟨heq, hall⟩ | ⟨j, hj, heq, hlt, hle⟩
      · refine ⟨0, by simp, ?_, by simpa using hv, ?_⟩
        · simp only [argminAcc, if_pos hv, heq, Nat.add_zero]
        · intro k hk
          cases k with
          | zero => simp
          | succ k' =>
            simp only [List.getD_cons_zero, List.getD_cons_succ]
            have hk' : k' < t.length := by simpa using hk
            exact hall _ (by rw [List.getD_eq_getElem _ _ hk']; exact List.getElem_mem _)
      · refine ⟨j + 1, by simpa using hj, ?_, ?_, ?_⟩
        · simp only [argminAcc, if_pos hv, heq]
          omega
        · simp only [List.getD_cons_succ]
          exact lt_trans hlt hv
        · intro k hk
          cases k with
          | zero =>
            simp only [List.getD_cons_succ, List.getD_cons_zero]
            exact le_of_lt hlt
          | succ k' =>
            simp only [List.getD_cons_succ]
            exact hle k' (by simpa using hk)
    · rcases ih bi (i + 1) bv with ⟨heq, hall⟩ | ⟨j, hj, heq, hlt, hle⟩
      · left
        refine ⟨by simp only [argminAcc, if_neg hv, heq], ?_⟩
        intro w hw
        rcases List.mem_cons.mp hw with rfl | hw'
        · exact not_lt.mp hv
        · exact hall _ hw'
      · right
        refine ⟨j + 1, by simpa using hj, ?_, ?_, ?_⟩
        · simp only [argminAcc, if_neg hv, heq]
          omega
        · simp only [List.getD_cons_succ]
          exact hlt
        · intro k hk
          cases k with
          | zero =>
            simp only [List.getD_cons_succ, List.getD_cons_zero]
            exact le_of_lt (lt_of_lt_of_le hlt (not_lt.mp hv))
          | succ k' =>
            simp only [List.getD_cons_succ]
            exact hle k' (by simpa using hk)

theorem npArgmin_lt_length {l : List ℚ} (h : l ≠ []) : npArgmin l < l.length := by
  cases l with
  | nil => exact absurd rfl h
  | cons v t =>
    simp only [npArgmin]
    rcases argminAcc_spec t 0 1 v with ⟨heq, _⟩ | ⟨j, hj, heq, _, _⟩
    · rw [heq]; simp
    · rw [heq]; simp; omega

theorem npArgmin_getD_le {l : List ℚ} :
    ∀ k, k < l.length → l.getD (npArgmin l) 0 ≤ l.getD k 0 := by
  cases l with
  | nil => intro k hk; simp at hk
  | cons v t =>
    intro k hk
    simp only [npArgmin]
    rcases argminAcc_spec t 0 1 v with ⟨heq, hall⟩ | ⟨j, hj, heq, hlt, hle⟩
    · rw [heq]
      cases k with
      | zero => simp
      | succ k' =>
        simp only [List.getD_cons_zero, List.getD_cons_succ]
        have hk' : k' < t.length := by simpa using hk
        exact hall _ (by rw [List.getD_eq_getElem _ _ hk']; exact List.getElem_mem _)
    · rw [heq]
      have h1j : 1 + j = j + 1 := by omega
      rw [h1j]
      simp only [List.getD_cons_succ]
      cases k with
      | zero =>
        simp only [List.getD_cons_zero]
        exact le_of_lt hlt
      | succ k' =>
        simp only [List.getD_cons_succ]
        exact hle k' (by simpa using hk)

theorem argmaxAcc_cases (rest : List ℚ) : ∀ (bi i : ℕ) (bv : ℚ),
    argmaxAcc bi bv i rest = bi ∨
    (i ≤ argmaxAcc bi bv i rest ∧ argmaxAcc bi bv i rest < i + rest.length) := by
  induction rest with
  | nil => intro bi i bv; left; rfl
  | cons v t ih =>
    intro bi i bv
    by_cases hv : bv < v
    · right
      rcases ih i (i + 1) v with heq | ⟨h1, h2⟩
      · simp only [argmaxAcc, if_pos hv, heq]
        refine ⟨le_rfl, ?_⟩
        simp only [List.length_cons]
        omega
      · simp only [argmaxAcc, if_pos hv]
        constructor
        · omega
        · simp only [List.length_cons]
          omega
    · rcases ih bi (i + 1) bv with heq | ⟨h1, h2⟩
      · left
        simp only [argmaxAcc, if_neg hv, heq]
      · right
        simp only [argmaxAcc, if_neg hv]
        constructor
        · omega
        · simp only [List.length_cons]
          omega

theorem npArgmax_lt_length {l : List ℚ} (h : l ≠ []) : npArgmax l < l.length := by
  cases l with
  | nil => exact absurd rfl h
  | cons v t =>
    simp only [npArgmax]
    rcases argmaxAcc_cases t 0 1 v with heq | ⟨_, h2⟩
    · rw [heq]; simp
    · simp only [List.length_cons]
      omega

theorem getD_frame_mono {l : List FramePose}
    (h : l.Pairwise (fun p q => p.frame_number < q.frame_number))
    {i j : ℕ} (hij : i ≤ j) (hj : j < l.length) :
    (l.getD i defaultFramePose).frame_number ≤ (l.getD j defaultFramePose).frame_number := by
  rcases eq_or_lt_of_le hij with rfl | hlt
  · exact le_rfl
  · have hi : i < l.length := lt_trans hlt hj
    rw [List.getD_eq_getElem _ _ hi, List.getD_eq_getElem _ _ hj]
    have hp := List.pairwise_iff_get.mp h ⟨i, hi⟩ ⟨j, hj⟩ hlt
    simp only [List.get_eq_getElem] at hp
    exact le_of_lt hp

/-- C3: when the pose sequence has strictly increasing frame numbers and the
keyframe detector returns all four phases, the phases are ordered
`setup ≤ reachback ≤ release ≤ follow_through`; in particular release never
precedes reachback. -/
theorem c3_keyframe_order (poses : List FramePose)
    (hmono : poses.Pairwise (fun p q => p.frame_number < q.frame_number))
    (s rb r ft : ℤ)
    (hs : (get_keyframe_indices poses).lookup "setup" = some s)
    (hrb : (get_keyframe_indices poses).lookup "reachback" = some rb)
    (hr : (get_keyframe_indices poses).lookup "release" = some r)
    (hft : (get_keyframe_indices poses).lookup "follow_through" = some ft) :
    s ≤ rb ∧ rb ≤ r ∧ r ≤ ft := by
  unfold get_keyframe_indices at hs hrb hr hft
  by_cases h1 : poses.length < 5
  · rw [if_pos h1] at hs
    simp at hs
  · rw [if_neg h1] at hs hrb hr hft
    dsimp only at hs hrb hr hft
    by_cases h2 : (poses.filter (fun p => p.detected)).length < 5
    · rw [if_pos h2] at hs
      simp at hs
    · rw [if_neg h2] at hs hrb hr hft
      have hpair : (poses.filter (fun p => p.detected)).Pairwise
          (fun p q => p.frame_number < q.frame_number) :=
        List.Pairwise.sublist (List.filter_sublist _) hmono
      have hwlen : (wristXs (poses.filter (fun p => p.detected))).length =
          (poses.filter (fun p => p.detected)).length := List.length_map _ _
      have hargmin : npArgmin (wristXs (poses.filter (fun p => p.detected))) <
          (poses.filter (fun p => p.detected)).length := by
        rw [← hwlen]
        exact npArgmin_lt_length (by
          intro hnil
          rw [hnil] at hwlen
          simp at hwlen
          omega)
      by_cases h3 : npArgmin (wristXs (poses.filter (fun p => p.detected))) + 2 <
          (wristXs (poses.filter (fun p => p.detected))).length
      · rw [if_pos h3] at hs hrb hr hft
        simp only [List.cons_append, List.nil_append, List.lookup, String.reduceBEq,
          Option.some.injEq] at hs hrb hr hft
        subst hs hrb hr hft
        refine ⟨?_, ?_, ?_⟩
        · exact getD_frame_mono hpair (Nat.zero_le _) hargmin
        · exact getD_frame_mono hpair (by omega) (by omega)
        · exact getD_frame_mono hpair (by omega) (by omega)
      · rw [if_neg h3] at hr
        simp only [List.cons_append, List.nil_append, List.lookup, String.reduceBEq] at hr
        exact absurd hr (by simp)

theorem keyframes_fiveWristPoses :
    get_keyframe_indices fiveWristPoses =
      [("reachback", 2), ("setup", 0), ("release", 3), ("follow_through", 4)] := by
  norm_num [get_keyframe_indices, fiveWristPoses, wristXs, npArgmin, argminAcc,
    npArgmax, argmaxAcc, npDiff, List.lookup, defaultFramePose, List.filter]

theorem c3_keyframe_order_witness :
    fiveWristPoses.Pairwise (fun p q => p.frame_number < q.frame_number) ∧
    (get_keyframe_indices fiveWristPoses).lookup "setup" = some 0 ∧
    (get_keyframe_indices fiveWristPoses).lookup "reachback" = some 2 ∧
    (get_keyframe_indices fiveWristPoses).lookup "release" = some 3 ∧
    (get_keyframe_indices fiveWristPoses).lookup "follow_through" = some 4 ∧
    ((0:ℤ) ≤ 2 ∧ (2:ℤ) ≤ 3 ∧ (3:ℤ) ≤ 4) := by
  have hm : fiveWristPoses.Pairwise (fun p q => p.frame_number < q.frame_number) := by
    norm_num [fiveWristPoses, List.pairwise_cons]
  have h1 : (get_keyframe_indices fiveWristPoses).lookup "setup" = some 0 := by
    rw [keyframes_fiveWristPoses]; simp [List.lookup]
  have h2 : (get_keyframe_indices fiveWristPoses).lookup "reachback" = some 2 := by
    rw [keyframes_fiveWristPoses]; simp [List.lookup]
  have h3 : (get_keyframe_indices fiveWristPoses).lookup "release" = some 3 := by
    rw [keyframes_fiveWristPoses]; simp [List.lookup]
  have h4 : (get_keyframe_indices fiveWristPoses).lookup "follow_through" = some 4 := by
    rw [keyframes_fiveWristPoses]; simp [List.lookup]
  exact ⟨hm, h1, h2, h3, h4, c3_keyframe_order fiveWristPoses hm 0 2 3 4 h1 h2 h3 h4⟩

/-- C4 (counterexample): on `fiveWristPoses` the reachback keyframe is frame 2,
the one detected pose whose wrist landmark is MISSING: its substituted value
0.5 is strictly below every real wrist sample, so a missing-wrist frame wins
the minimum, contradicting the claim. -/
theorem c4_counterexample :
    (get_keyframe_indices fiveWristPoses).lookup "reachback" = some 2 ∧
    (fiveWristPoses.getD 2 defaultFramePose).landmarks.lookup "right_wrist" = none ∧
    (fiveWristPoses.getD 2 defaultFramePose).detected = true := by
  refine ⟨?_, ?_, ?_⟩
  · rw [keyframes_fiveWristPoses]; simp [List.lookup]
  · simp [fiveWristPoses]
  · simp [fiveWristPoses]

/-- C4 (amended): with at least 5 detected poses, the reachback keyframe is
the frame number of the detected pose minimizing the wrist x AFTER the 0.5
substitution for missing wrists; and a missing-wrist pose can never win that
minimum PROVIDED some detected pose carries a wrist with x strictly below
0.5. -/
theorem c4_reachback_amended (poses : List FramePose)
    (h5 : 5 ≤ (poses.filter (fun p => p.detected)).length) :
    (get_keyframe_indices poses).lookup "reachback" =
      some (((poses.filter (fun p => p.detected)).getD
        (npArgmin (wristXs (poses.filter (fun p => p.detected))))
        defaultFramePose).frame_number) ∧
    (∀ i, i < (poses.filter (fun p => p.detected)).length →
      (∃ w, ((poses.filter (fun p => p.detected)).getD i
          defaultFramePose).landmarks.lookup "right_wrist" = some w ∧ w.x < 1/2) →
      (((poses.filter (fun p => p.detected)).getD
        (npArgmin (wristXs (poses.filter (fun p => p.detected))))
        defaultFramePose).landmarks.lookup "right_wrist").isSome = true) := by
  have hpl : 5 ≤ poses.length :=
    le_trans h5 (List.length_filter_le _ _)
  have hwlen : (wristXs (poses.filter (fun p => p.detected))).length =
      (poses.filter (fun p => p.detected)).length := List.length_map _ _
  have hargmin : npArgmin (wristXs (poses.filter (fun p => p.detected))) <
      (wristXs (poses.filter (fun p => p.detected))).length :=
    npArgmin_lt_length (by
      intro hnil
      rw [hnil] at hwlen
      simp at hwlen
      omega)
  constructor
  · unfold get_keyframe_indices
    dsimp only
    rw [if_neg (show ¬poses.length < 5 by omega),
      if_neg (show ¬(poses.filter (fun p => p.detected)).length < 5 by omega)]
    by_cases h3 : npArgmin (wristXs (poses.filter (fun p => p.detected))) + 2 <
        (wristXs (poses.filter (fun p => p.detected))).length
    · rw [if_pos h3]
      simp only [List.cons_append, List.lookup, String.reduceBEq]
    · rw [if_neg h3]
      simp only [List.cons_append, List.nil_append, List.lookup, String.reduceBEq]
  · intro i hi hex
    obtain ⟨w, hw, hwx⟩ := hex
    by_cases hopt : (((poses.filter (fun p => p.detected)).getD
        (npArgmin (wristXs (poses.filter (fun p => p.detected))))
        defaultFramePose).landmarks.lookup "right_wrist").isSome = true
    · exact hopt
    · exfalso
      have hnone : ((poses.filter (fun p => p.detected)).getD
          (npArgmin (wristXs (poses.filter (fun p => p.detected))))
          defaultFramePose).landmarks.lookup "right_wrist" = none := by
        rw [← Option.not_isSome_iff_eq_none]
        simpa using hopt
      have hle := npArgmin_getD_le (l := wristXs (poses.filter (fun p => p.detected)))
        i (by omega)
      have hvi : (wristXs (poses.filter (fun p => p.detected))).getD i 0 = w.x := by
        rw [List.getD_eq_getElem _ _ (by omega)]
        unfold wristXs
        rw [List.getElem_map]
        rw [List.getD_eq_getElem _ _ hi] at hw
        rw [hw]
      have hva : (wristXs (poses.filter (fun p => p.detected))).getD
          (npArgmin (wristXs (poses.filter (fun p => p.detected)))) 0 = 1/2 := by
        rw [List.getD_eq_getElem _ _ hargmin]
        rw [List.getD_eq_getElem _ _ (by omega)] at hnone
        unfold wristXs at hnone ⊢
        rw [List.getElem_map]
        rw [hnone]
      rw [hva, hvi] at hle
      linarith

theorem c4_reachback_amended_witness :
    5 ≤ (fiveWristPoses2.filter (fun p => p.detected)).length ∧
    ((get_keyframe_indices fiveWristPoses2).lookup "reachback" =
      some (((fiveWristPoses2.filter (fun p => p.detected)).getD
        (npArgmin (wristXs (fiveWristPoses2.filter (fun p => p.detected))))
        defaultFramePose).frame_number) ∧
    (∀ i, i < (fiveWristPoses2.filter (fun p => p.detected)).length →
      (∃ w, ((fiveWristPoses2.filter (fun p => p.detected)).getD i
          defaultFramePose).landmarks.lookup "right_wrist" = some w ∧ w.x < 1/2) →
      (((fiveWristPoses2.filter (fun p => p.detected)).getD
        (npArgmin (wristXs (fiveWristPoses2.filter (fun p => p.detected))))
        defaultFramePose).landmarks.lookup "right_wrist").isSome = true)) :=
  ⟨by norm_num [fiveWristPoses2, List.filter],
   c4_reachback_amended _ (by norm_num [fiveWristPoses2, List.filter])⟩

theorem to_dict_zero :
    BiomechanicsMetrics.to_dict {} =
      [("reachback_depth_score", 0), ("hip_rotation_degrees", 0),
       ("shoulder_separation_degrees", 0), ("follow_through_score", 0),
       ("weight_shift_score", 0)] := by
  norm_num [BiomechanicsMetrics.to_dict, round1, roundHalfEven]

theorem feedbackScan_all_zero (mult : ℚ) (h : 0 < mult) :
    feedbackScan mult (BiomechanicsMetrics.to_dict {}) =
      (["Extend your reachback further - try to get your throwing hand behind your rear shoulder.",
        "Rotate your hips more during the throw. Lead with your hips, not your arm.",
        "Create more separation between your shoulders and hips. Keep shoulders closed longer.",
        "Follow through more completely. Let your arm continue across your body after release.",
        "Shift your weight more decisively from back foot to front foot during the throw."],
       [],
       [("reachback_depth_score", "low"), ("hip_rotation_degrees", "low"),
        ("shoulder_separation_degrees", "low"), ("follow_through_score", "low"),
        ("weight_shift_score", "low")]) := by
  have h50 : (0:ℚ) < 50 * mult := by positivity
  have h30 : (0:ℚ) < 30 * mult := by positivity
  have h25 : (0:ℚ) < 25 * mult := by positivity
  unfold feedbackScan FEEDBACK_RULES
  rw [to_dict_zero]
  simp only [List.foldl_cons, List.foldl_nil, feedbackStep, List.lookup,
    String.reduceBEq, Option.elim_some, Option.elim_none, h50, h30, h25,
    if_true, List.nil_append, List.cons_append, List.append_nil]

/-- C7: on the all-zero metrics every rule fires low (0 is below every
adjusted low threshold at every skill level), so the priority focus is
`hip_rotation`, the tips list is non-empty, and the output caps of 4 tips and
3 strengths hold. -/
theorem c7_all_zero_feedback (skill : String)
    (hs : skill ∈ (["beginner", "intermediate", "advanced"] : List String)) :
    (generate_feedback skill {}).priority_focus = "hip_rotation" ∧
    (generate_feedback skill {}).pose_tips ≠ [] ∧
    (generate_feedback skill {}).pose_tips.length ≤ 4 ∧
    (generate_feedback skill {}).strengths.length ≤ 3 := by
  have hcases : skill = "beginner" ∨ skill = "intermediate" ∨ skill = "advanced" := by
    simpa using hs
  rcases hcases with rfl | rfl | rfl <;>
    · unfold generate_feedback
      dsimp only
      rw [feedbackScan_all_zero _ (by
        simp only [thresholdMultiplier, String.reduceEq, if_false, if_true]
        norm_num)]
      rw [to_dict_zero]
      simp only [determine_priority, PRIORITY_ORDER, List.find?, List.lookup,
        String.reduceBEq, beq_self_eq_true, Option.elim_some, Option.elim_none,
        metric_to_focus_area, String.reduceEq, if_true, if_false]
      simp

theorem c7_all_zero_feedback_witness :
    ("intermediate" ∈ (["beginner", "intermediate", "advanced"] : List String)) ∧
    ((generate_feedback "intermediate" {}).priority_focus = "hip_rotation" ∧
     (generate_feedback "intermediate" {}).pose_tips ≠ [] ∧
     (generate_feedback "intermediate" {}).pose_tips.length ≤ 4 ∧
     (generate_feedback "intermediate" {}).strengths.length ≤ 3) :=
  ⟨by simp, c7_all_zero_feedback "intermediate" (by simp)⟩

theorem feedbackStep_statuses (mult : ℚ) (md : List (String × ℚ))
    (acc : List String × List String × List (String × String))
    (r : FeedbackRule) (v : ℚ) (hmem : md.lookup r.metric_name = some v) :
    (feedbackStep mult md acc r).2.2 =
      acc.2.2 ++ [(r.metric_name,
        classifyValue mult v r.threshold_low r.threshold_high)] := by
  unfold feedbackStep classifyValue
  rw [hmem]
  simp only [Option.elim_some]
  split_ifs <;> rfl

theorem feedbackStep_tips (mult : ℚ) (md : List (String × ℚ))
    (acc : List String × List String × List (String × String))
    (r : FeedbackRule) (v : ℚ) (hmem : md.lookup r.metric_name = some v) :
    (feedbackStep mult md acc r).1 =
      acc.1 ++ (if classifyValue mult v r.threshold_low r.threshold_high = "low"
        then [r.feedback_if_low] else []) := by
  unfold feedbackStep classifyValue
  rw [hmem]
  simp only [Option.elim_some]
  split_ifs <;> simp_all

theorem feedbackStep_strengths (mult : ℚ) (md : List (String × ℚ))
    (acc : List String × List String × List (String × String))
    (r : FeedbackRule) (v : ℚ) (hmem : md.lookup r.metric_name = some v) :
    (feedbackStep mult md acc r).2.1 =
      acc.2.1 ++ (if classifyValue mult v r.threshold_low r.threshold_high = "high"
        then [r.feedback_if_good] else []) := by
  unfold feedbackStep classifyValue
  rw [hmem]
  simp only [Option.elim_some]
  split_ifs <;> simp_all

theorem to_dict_lookup_reachback (m : BiomechanicsMetrics) :
    m.to_dict.lookup "reachback_depth_score" = some m.reachback_depth_score := by
  simp [BiomechanicsMetrics.to_dict, List.lookup]

theorem to_dict_lookup_hip (m : BiomechanicsMetrics) :
    m.to_dict.lookup "hip_rotation_degrees" = some (round1 m.hip_rotation_degrees) := by
  simp [BiomechanicsMetrics.to_dict, List.lookup]

theorem to_dict_lookup_shoulder (m : BiomechanicsMetrics) :
    m.to_dict.lookup "shoulder_separation_degrees" =
      some (round1 m.shoulder_separation_degrees) := by
  simp [BiomechanicsMetrics.to_dict, List.lookup]

theorem to_dict_lookup_follow (m : BiomechanicsMetrics) :
    m.to_dict.lookup "follow_through_score" = some m.follow_through_score := by
  simp [BiomechanicsMetrics.to_dict, List.lookup]

theorem to_dict_lookup_weight (m : BiomechanicsMetrics) :
    m.to_dict.lookup "weight_shift_score" = some m.weight_shift_score := by
  simp [BiomechanicsMetrics.to_dict, List.lookup]

theorem metricStatuses_eq (skill : String) (m : BiomechanicsMetrics) :
    metricStatuses skill m =
      [("reachback_depth_score",
        classifyValue (thresholdMultiplier skill) m.reachback_depth_score 50 75),
       ("hip_rotation_degrees",
        classifyValue (thresholdMultiplier skill) (round1 m.hip_rotation_degrees) 30 45),
       ("shoulder_separation_degrees",
        classifyValue (thresholdMultiplier skill) (round1 m.shoulder_separation_degrees) 25 40),
       ("follow_through_score",
        classifyValue (thresholdMultiplier skill) m.follow_through_score 50 75),
       ("weight_shift_score",
        classifyValue (thresholdMultiplier skill) m.weight_shift_score 50 75)] := by
  unfold metricStatuses feedbackScan FEEDBACK_RULES
  simp only [List.foldl_cons, List.foldl_nil]
  rw [feedbackStep_statuses _ _ _ _ _ (to_dict_lookup_weight m),
    feedbackStep_statuses _ _ _ _ _ (to_dict_lookup_follow m),
    feedbackStep_statuses _ _ _ _ _ (to_dict_lookup_shoulder m),
    feedbackStep_statuses _ _ _ _ _ (to_dict_lookup_hip m),
    feedbackStep_statuses _ _ _ _ _ (to_dict_lookup_reachback m)]
  simp

theorem scanStrengths_eq (skill : String) (m : BiomechanicsMetrics) :
    scanStrengths skill m =
      (if classifyValue (thresholdMultiplier skill) m.reachback_depth_score 50 75 = "high"
        then ["Good reachback extension - you're creating space for acceleration."] else []) ++
      (if classifyValue (thresholdMultiplier skill) (round1 m.hip_rotation_degrees) 30 45 = "high"
        then ["Good hip rotation - you're generating power from your lower body."] else []) ++
      (if classifyValue (thresholdMultiplier skill) (round1 m.shoulder_separation_degrees) 25 40 = "high"
        then ["Good shoulder-hip separation - you're building torque effectively."] else []) ++
      (if classifyValue (thresholdMultiplier skill) m.follow_through_score 50 75 = "high"
        then ["Good follow-through - you're completing the throwing motion."] else []) ++
      (if classifyValue (thresholdMultiplier skill) m.weight_shift_score 50 75 = "high"
        then ["Good weight transfer - you're driving power through your legs."] else []) := by
  unfold scanStrengths feedbackScan FEEDBACK_RULES
  simp only [List.foldl_cons, List.foldl_nil]
  rw [feedbackStep_strengths _ _ _ _ _ (to_dict_lookup_weight m),
    feedbackStep_strengths _ _ _ _ _ (to_dict_lookup_follow m),
    feedbackStep_strengths _ _ _ _ _ (to_dict_lookup_shoulder m),
    feedbackStep_strengths _ _ _ _ _ (to_dict_lookup_hip m),
    feedbackStep_strengths _ _ _ _ _ (to_dict_lookup_reachback m)]
  simp

theorem fract_1035_half : Int.fract ((1035:ℚ)/2) = 1/2 := by
  rw [Int.fract]
  norm_num

theorem fract_575_half : Int.fract ((575:ℚ)/2) = 1/2 := by
  rw [Int.fract]
  norm_num

theorem not_even_517 : ¬ Even (517:ℤ) := by
  rw [Int.even_iff]
  decide

theorem not_even_287 : ¬ Even (287:ℤ) := by
  rw [Int.even_iff]
  decide

set_option maxHeartbeats 2000000 in
/-- C6: for every metrics record, skill level and rule, a metric (raw field)
value equal to exactly `high_threshold × multiplier` is classified high and
emits the rule's strength message; a value equal to exactly
`low_threshold × multiplier` is NOT classified low (the low boundary is
exclusive, the high boundary inclusive). -/
theorem c6_threshold_boundaries (skill : String)
    (hs : skill ∈ (["beginner", "intermediate", "advanced"] : List String))
    (m : BiomechanicsMetrics) (r : FeedbackRule) (hr : r ∈ FEEDBACK_RULES) :
    (rawMetricValue m r.metric_name = r.threshold_high * thresholdMultiplier skill →
      (r.metric_name, "high") ∈ metricStatuses skill m ∧
      r.feedback_if_good ∈ scanStrengths skill m) ∧
    (rawMetricValue m r.metric_name = r.threshold_low * thresholdMultiplier skill →
      (r.metric_name, "low") ∉ metricStatuses skill m) := by
  have hsk : skill = "beginner" ∨ skill = "intermediate" ∨ skill = "advanced" := by
    simpa using hs
  simp only [FEEDBACK_RULES, List.mem_cons, List.mem_singleton, List.not_mem_nil,
    or_false] at hr
  rcases hsk with rfl | rfl | rfl <;>
    rcases hr with rfl | rfl | rfl | rfl | rfl <;>
      (constructor
       · intro h
         simp only [rawMetricValue, String.reduceEq, if_true, if_false] at h
         rw [metricStatuses_eq, scanStrengths_eq, h]
         norm_num [classifyValue, round1, roundHalfEven, thresholdMultiplier,
           fract_1035_half, fract_575_half, not_even_517, not_even_287]
         try simp
         try norm_num [fract_1035_half, fract_575_half, not_even_517, not_even_287]
         try simp
       · intro h
         simp only [rawMetricValue, String.reduceEq, if_true, if_false] at h
         rw [metricStatuses_eq]
         intro hmem
         rw [h] at hmem
         simp only [List.mem_cons, List.mem_singleton, List.not_mem_nil,
           Prod.mk.injEq, String.reduceEq, false_and, and_false, false_or,
           or_false, true_and] at hmem
         try norm_num [classifyValue, round1, roundHalfEven, thresholdMultiplier,
           fract_1035_half, fract_575_half, not_even_517, not_even_287] at hmem
         try simp at hmem
         try norm_num [fract_1035_half, fract_575_half, not_even_517, not_even_287] at hmem
         try simp at hmem)

theorem c6_threshold_boundaries_witness :
    ("intermediate" ∈ (["beginner", "intermediate", "advanced"] : List String)) ∧
    hipRule ∈ FEEDBACK_RULES ∧
    ((rawMetricValue m45 hipRule.metric_name =
        hipRule.threshold_high * thresholdMultiplier "intermediate" →
      (hipRule.metric_name, "high") ∈ metricStatuses "intermediate" m45 ∧
      hipRule.feedback_if_good ∈ scanStrengths "intermediate" m45) ∧
    (rawMetricValue m45 hipRule.metric_name =
        hipRule.threshold_low * thresholdMultiplier "intermediate" →
      (hipRule.metric_name, "low") ∉ metricStatuses "intermediate" m45)) :=
  ⟨by simp, by simp [FEEDBACK_RULES, hipRule],
   c6_threshold_boundaries "intermediate" (by simp) m45 hipRule
     (by simp [FEEDBACK_RULES, hipRule])⟩

theorem npDiff_length (l : List ℚ) : (npDiff l).length = l.length - 1 := by
  induction l with
  | nil => rfl
  | cons a t ih =>
    cases t with
    | nil => rfl
    | cons b u =>
      simp only [npDiff, List.length_cons] at ih ⊢
      omega

/-- C8 (amended): with a nonempty elbow-angle series and a nonempty
reach-back-extension series, the release key moment is produced exactly when
there are strictly MORE than 10 elbow samples strictly after the reach-back
frame (the in-bounds check on the maximum-acceleration index then always
holds); when produced, its frame lies strictly after the reach-back frame. -/
theorem c8_release_amended (metrics : List (String × List (ℚ × ℚ)))
    (es rs : List (ℚ × ℚ))
    (hes : metrics.lookup "elbow_angle" = some es) (hesne : es ≠ [])
    (hrs : metrics.lookup "reach_back_extension" = some rs) (hrsne : rs ≠ []) :
    ((identify_key_moments metrics).release.isSome = true ↔
      10 < (es.filter (fun m =>
        ((identify_key_moments metrics).reach_back.map KeyMoment.frame).getD 0 < m.1)).length) ∧
    (∀ km, (identify_key_moments metrics).release = some km →
      ((identify_key_moments metrics).reach_back.map KeyMoment.frame).getD 0 < km.frame) := by
  unfold identify_key_moments
  rw [hes, hrs]
  dsimp only
  rw [if_neg hesne, if_neg (by simp [hesne, hrsne])]
  dsimp only [Option.map_some', Option.getD_some]
  set F : ℚ := (es.map (fun m => m.1)).getD (npArgmin (es.map (fun m => m.2))) 0 with hF
  set flt := es.filter (fun m => F < m.1) with hflt
  set sorted := flt.mergeSort (fun a b => a.1 < b.1 ∨ (a.1 = b.1 ∧ a.2 ≤ b.2)) with hsorted
  have hslen : sorted.length = flt.length := by
    rw [hsorted]
    exact List.length_mergeSort flt
  have haclen : (npDiff (npDiff (sorted.map (fun m => m.2)))).length =
      sorted.length - 2 := by
    rw [npDiff_length, npDiff_length, List.length_map]
    omega
  constructor
  · by_cases hlen : 10 < flt.length
    · rw [if_pos (by omega)]
      have hacne : npDiff (npDiff (sorted.map (fun m => m.2))) ≠ [] := by
        intro hnil
        rw [hnil] at haclen
        simp at haclen
        omega
      rw [if_neg hacne]
      have hidx : npArgmax ((npDiff (npDiff (sorted.map (fun m => m.2)))).map (fun q => |q|)) <
          (sorted.map (fun m => m.1)).length - 2 := by
        have h1 := npArgmax_lt_length (l := (npDiff (npDiff (sorted.map (fun m => m.2)))).map (fun q => |q|))
          (by simpa using hacne)
        rw [List.length_map] at h1 ⊢
        omega
      rw [if_pos hidx]
      simp [hlen]
    · rw [if_neg (by omega)]
      simp [hlen]
  · intro km hkm
    by_cases hlen : 10 < flt.length
    · rw [if_pos (by omega)] at hkm
      by_cases hacne : npDiff (npDiff (sorted.map (fun m => m.2))) = []
      · rw [if_pos hacne] at hkm
        exact absurd hkm (by simp)
      · rw [if_neg hacne] at hkm
        by_cases hidx : npArgmax ((npDiff (npDiff (sorted.map (fun m => m.2)))).map (fun q => |q|)) <
            (sorted.map (fun m => m.1)).length - 2
        · rw [if_pos hidx] at hkm
          have hkm' := Option.some.inj hkm
          have hj : npArgmax ((npDiff (npDiff (sorted.map (fun m => m.2)))).map (fun q => |q|)) + 1 <
              sorted.length := by
            rw [List.length_map] at hidx
            omega
          have hframe : km.frame = (sorted.getD
              (npArgmax ((npDiff (npDiff (sorted.map (fun m => m.2)))).map (fun q => |q|)) + 1)
              (0, 0)).1 := by
            rw [← hkm']
            dsimp only
            rw [List.getD_eq_getElem _ _ (by rw [List.length_map]; exact hj),
              List.getD_eq_getElem _ _ hj, List.getElem_map]
          have hmem : sorted.getD
              (npArgmax ((npDiff (npDiff (sorted.map (fun m => m.2)))).map (fun q => |q|)) + 1)
              (0, 0) ∈ sorted := by
            rw [List.getD_eq_getElem _ _ hj]
            exact List.getElem_mem _
          rw [hsorted, List.mem_mergeSort, hflt, List.mem_filter] at hmem
          have := of_decide_eq_true hmem.2
          rw [hframe]
          exact this
        · rw [if_neg hidx] at hkm
          exact absurd hkm (by simp)
    · rw [if_neg (by omega)] at hkm
      exact absurd hkm (by simp)

/-- C8 (counterexample): on `elbowMetrics10` there are exactly 10 elbow
samples strictly after the reach-back frame and the maximum-acceleration index
is in bounds, yet the release key is left undetected: the code requires
strictly MORE than 10 samples, not "at least 10". -/
theorem c8_counterexample :
    (identify_key_moments elbowMetrics10).reach_back = some ⟨0, 10⟩ ∧
    (elbowSeries10.filter (fun m => (0:ℚ) < m.1)).length = 10 ∧
    (identify_key_moments elbowMetrics10).release = none := by
  have hes : elbowMetrics10.lookup "elbow_angle" = some elbowSeries10 := by
    simp [elbowMetrics10, List.lookup]
  have hrs : elbowMetrics10.lookup "reach_back_extension" = some [(0, 1)] := by
    simp [elbowMetrics10, List.lookup]
  have hargmin : npArgmin (elbowSeries10.map (fun m => m.2)) = 0 := by
    norm_num [elbowSeries10, npArgmin, argminAcc]
  have hfl : (elbowSeries10.filter (fun m => (0:ℚ) < m.1)).length = 10 := by
    norm_num [elbowSeries10]
  refine ⟨?_, hfl, ?_⟩
  · unfold identify_key_moments
    rw [hes]
    dsimp only
    rw [if_neg (by simp [elbowSeries10])]
    rw [hargmin]
    norm_num [elbowSeries10]
  · unfold identify_key_moments
    rw [hes, hrs]
    dsimp only
    rw [if_neg (by simp [elbowSeries10]),
      if_neg (by
        simp [elbowSeries10]
        try norm_num [npArgmin, argminAcc])]

theorem c8_release_amended_witness :
    elbowMetrics11.lookup "elbow_angle" = some elbowSeries11 ∧
    elbowSeries11 ≠ [] ∧
    elbowMetrics11.lookup "reach_back_extension" = some [(0, 1)] ∧
    ([((0:ℚ), (1:ℚ))] ≠ ([] : List (ℚ × ℚ))) ∧
    (((identify_key_moments elbowMetrics11).release.isSome = true ↔
      10 < (elbowSeries11.filter (fun m =>
        ((identify_key_moments elbowMetrics11).reach_back.map KeyMoment.frame).getD 0 < m.1)).length) ∧
    (∀ km, (identify_key_moments elbowMetrics11).release = some km →
      ((identify_key_moments elbowMetrics11).reach_back.map KeyMoment.frame).getD 0 < km.frame)) := by
  have hes : elbowMetrics11.lookup "elbow_angle" = some elbowSeries11 := by
    simp [elbowMetrics11, List.lookup]
  have hrs : elbowMetrics11.lookup "reach_back_extension" = some [(0, 1)] := by
    simp [elbowMetrics11, List.lookup]
  exact ⟨hes, by simp [elbowSeries11], hrs, by simp,
    c8_release_amended elbowMetrics11 elbowSeries11 [(0, 1)] hes
      (by simp [elbowSeries11]) hrs (by simp)⟩

/-- C10: phase segmentation tests key moments by numeric truthiness, not
presence: a detected reach-back moment at frame 0 (with release undetected)
is treated as undetected, and the phases fall back to the even quartile split
of the frame range instead of anchoring the reach-back phase at the detected
moment (whose key-metric snapshot stays empty). -/
theorem c10_truthiness_phase_fallback (m : FormMetrics) (km : KeyMoment)
    (hrb : m.key_moments.reach_back = some km) (hzero : km.frame = 0)
    (hrel : m.key_moments.release = none) (hne : allFrames m ≠ []) :
    (identify_throw_phases m).reach_back.frame_range =
      (pyListMin (allFrames m),
       pyListMin (allFrames m) +
         pyFloorDiv (pyListMax (allFrames m) - pyListMin (allFrames m)) 4) ∧
    (identify_throw_phases m).pull_through.frame_range =
      (pyListMin (allFrames m) +
         pyFloorDiv (pyListMax (allFrames m) - pyListMin (allFrames m)) 4,
       pyListMin (allFrames m) +
         2 * pyFloorDiv (pyListMax (allFrames m) - pyListMin (allFrames m)) 4) ∧
    (identify_throw_phases m).release.frame_range =
      (pyListMin (allFrames m) +
         2 * pyFloorDiv (pyListMax (allFrames m) - pyListMin (allFrames m)) 4,
       pyListMin (allFrames m) +
         3 * pyFloorDiv (pyListMax (allFrames m) - pyListMin (allFrames m)) 4) ∧
    (identify_throw_phases m).follow_through.frame_range =
      (pyListMin (allFrames m) +
         3 * pyFloorDiv (pyListMax (allFrames m) - pyListMin (allFrames m)) 4,
       pyListMax (allFrames m)) ∧
    (identify_throw_phases m).reach_back.key_metrics = [] := by
  have h1 : optTruthy (m.key_moments.reach_back.map KeyMoment.frame) = false := by
    rw [hrb]
    simp [optTruthy, hzero]
  have h2 : optTruthy (m.key_moments.release.map KeyMoment.frame) = false := by
    rw [hrel]
    simp [optTruthy]
  unfold identify_throw_phases
  dsimp only
  rw [if_neg hne, h1, h2]
  simp

theorem c10_truthiness_phase_fallback_witness :
    zeroFrameMetrics.key_moments.reach_back = some ⟨0, 10⟩ ∧
    (⟨0, 10⟩ : KeyMoment).frame = 0 ∧
    zeroFrameMetrics.key_moments.release = none ∧
    allFrames zeroFrameMetrics ≠ [] ∧
    ((identify_throw_phases zeroFrameMetrics).reach_back.frame_range =
      (pyListMin (allFrames zeroFrameMetrics),
       pyListMin (allFrames zeroFrameMetrics) +
         pyFloorDiv (pyListMax (allFrames zeroFrameMetrics) -
           pyListMin (allFrames zeroFrameMetrics)) 4) ∧
    (identify_throw_phases zeroFrameMetrics).pull_through.frame_range =
      (pyListMin (allFrames zeroFrameMetrics) +
         pyFloorDiv (pyListMax (allFrames zeroFrameMetrics) -
           pyListMin (allFrames zeroFrameMetrics)) 4,
       pyListMin (allFrames zeroFrameMetrics) +
         2 * pyFloorDiv (pyListMax (allFrames zeroFrameMetrics) -
           pyListMin (allFrames zeroFrameMetrics)) 4) ∧
    (identify_throw_phases zeroFrameMetrics).release.frame_range =
      (pyListMin (allFrames zeroFrameMetrics) +
         2 * pyFloorDiv (pyListMax (allFrames zeroFrameMetrics) -
           pyListMin (allFrames zeroFrameMetrics)) 4,
       pyListMin (allFrames zeroFrameMetrics) +
         3 * pyFloorDiv (pyListMax (allFrames zeroFrameMetrics) -
           pyListMin (allFrames zeroFrameMetrics)) 4) ∧
    (identify_throw_phases zeroFrameMetrics).follow_through.frame_range =
      (pyListMin (allFrames zeroFrameMetrics) +
         3 * pyFloorDiv (pyListMax (allFrames zeroFrameMetrics) -
           pyListMin (allFrames zeroFrameMetrics)) 4,
       pyListMax (allFrames zeroFrameMetrics)) ∧
    (identify_throw_phases zeroFrameMetrics).reach_back.key_metrics = []) :=
  ⟨rfl, rfl, rfl, by simp [allFrames, zeroFrameMetrics],
   c10_truthiness_phase_fallback zeroFrameMetrics ⟨0, 10⟩ rfl rfl rfl
     (by simp [allFrames, zeroFrameMetrics])⟩

theorem compareStep_inv (pm : List (String × List (ℚ × ℚ)))
    (acc : List (String × ℚ) × ℚ × ℕ) (e : String × List (ℚ × ℚ))
    (h : (∀ s ∈ acc.1, 0 ≤ s.2 ∧ s.2 ≤ 1) ∧
      acc.2.1 = (acc.1.map Prod.snd).sum ∧ acc.2.2 = acc.1.length) :
    (∀ s ∈ (compareStep pm acc e).1, 0 ≤ s.2 ∧ s.2 ≤ 1) ∧
      (compareStep pm acc e).2.1 = ((compareStep pm acc e).1.map Prod.snd).sum ∧
      (compareStep pm acc e).2.2 = (compareStep pm acc e).1.length := by
  unfold compareStep
  split_ifs with h1
  · exact h
  · cases hps : pm.lookup e.1 with
    | none => exact h
    | some ps =>
      dsimp only
      split_ifs with h2 h3
      · exact h
      · refine ⟨?_, ?_, ?_⟩
        · intro s hs
          rcases List.mem_append.mp hs with hs' | hs'
          · exact h.1 s hs'
          · rcases List.mem_singleton.mp hs' with rfl
            refine ⟨le_max_left _ _, max_le (by norm_num) (min_le_left _ _)⟩
        · simp only [List.map_append, List.sum_append, List.map_cons, List.map_nil,
            List.sum_cons, List.sum_nil, add_zero]
          rw [h.2.1]
        · simp only [List.length_append, List.length_singleton]
          rw [h.2.2]
      · exact h

theorem compareFold_inv (pm : List (String × List (ℚ × ℚ)))
    (l : List (String × List (ℚ × ℚ))) :
    ∀ acc, ((∀ s ∈ acc.1, 0 ≤ s.2 ∧ s.2 ≤ 1) ∧
      acc.2.1 = (acc.1.map Prod.snd).sum ∧ acc.2.2 = acc.1.length) →
    (∀ s ∈ (l.foldl (compareStep pm) acc).1, 0 ≤ s.2 ∧ s.2 ≤ 1) ∧
      (l.foldl (compareStep pm) acc).2.1 =
        ((l.foldl (compareStep pm) acc).1.map Prod.snd).sum ∧
      (l.foldl (compareStep pm) acc).2.2 = (l.foldl (compareStep pm) acc).1.length := by
  induction l with
  | nil => intro acc h; exact h
  | cons e t ih =>
    intro acc h
    exact ih _ (compareStep_inv pm acc e h)

theorem compare_with_pro_scores_clamped (u : List (String × List (ℚ × ℚ)))
    (p : ProModel) :
    ∀ s ∈ (compare_with_pro u p).metric_similarities, 0 ≤ s.2 ∧ s.2 ≤ 1 := by
  have h := compareFold_inv p.metrics u ([], 0, 0) (by simp)
  exact h.1

theorem compare_with_pro_overall_mean (u : List (String × List (ℚ × ℚ)))
    (p : ProModel) (hne : (compare_with_pro u p).metric_similarities ≠ []) :
    (compare_with_pro u p).overall_similarity =
      (((compare_with_pro u p).metric_similarities.map Prod.snd).sum) /
        (((compare_with_pro u p).metric_similarities.length : ℕ) : ℚ) := by
  have h := compareFold_inv p.metrics u ([], 0, 0) (by simp)
  unfold compare_with_pro at hne ⊢
  dsimp only at hne ⊢
  rw [h.2.1, h.2.2]
  rw [if_pos (by
    have : (u.foldl (compareStep p.metrics) ([], 0, 0)).1.length ≠ 0 :=
      fun hz => hne (List.length_eq_zero.mp hz)
    omega)]

theorem init_le_foldl_max (l : List ℚ) : ∀ init : ℚ, init ≤ l.foldl max init := by
  induction l with
  | nil => intro init; exact le_rfl
  | cons v t ih =>
    intro init
    exact le_trans (le_max_left init v) (ih (max init v))

theorem le_foldl_max (l : List ℚ) : ∀ init : ℚ, ∀ x ∈ l, x ≤ l.foldl max init := by
  induction l with
  | nil => intro _ x hx; simp at hx
  | cons v t ih =>
    intro init x hx
    rcases List.mem_cons.mp hx with rfl | hx'
    · exact le_trans (le_max_right init x) (init_le_foldl_max t _)
    · exact ih _ x hx'

theorem le_pyListMax (l : List ℚ) (x : ℚ) (hx : x ∈ l) : x ≤ pyListMax l :=
  le_foldl_max l _ x hx

theorem nodup_lookup {α : Type} {l : List (String × α)}
    (h : (l.map Prod.fst).Nodup) {e : String × α} (he : e ∈ l) :
    l.lookup e.1 = some e.2 := by
  induction l with
  | nil => simp at he
  | cons a t ih =>
    rcases List.mem_cons.mp he with rfl | he'
    · simp [List.lookup]
    · have hne : a.1 ≠ e.1 := by
        intro hcontra
        have : e.1 ∈ t.map Prod.fst := List.mem_map_of_mem _ he'
        rw [← hcontra] at this
        exact (List.nodup_cons.mp h).1 this
      simp only [List.lookup]
      have hb : (e.1 == a.1) = false := beq_eq_false_iff_ne.mpr (Ne.symm hne)
      rw [hb]
      exact ih (List.nodup_cons.mp h).2 he'

theorem absDiffs_self (l : List ℚ) :
    (l.zip l).map (fun p => |p.1 - p.2|) = List.replicate l.length 0 := by
  induction l with
  | nil => rfl
  | cons a t ih =>
    simp only [List.zip_cons_cons, List.map_cons, sub_self, abs_zero,
      List.length_cons, List.replicate_succ, ih]

theorem meanAbsDiff_self (l : List ℚ) : meanAbsDiff l l = 0 := by
  unfold meanAbsDiff meanQ
  rw [absDiffs_self, List.sum_replicate]
  simp

theorem metricSimilarity_self (name : String) (uv pv : List ℚ) :
    metricSimilarity name uv pv uv = 1 := by
  unfold metricSimilarity
  rw [meanAbsDiff_self]
  split_ifs <;> simp

theorem chain'_lt_head_getD {x : ℚ} {l : List ℚ}
    (h : (x :: l).Chain' (· < ·)) {j : ℕ} (hj : j < l.length) :
    x < l.getD j 0 := by
  have hp : (x :: l).Pairwise (· < ·) := List.chain'_iff_pairwise.mp h
  refine (List.pairwise_cons.mp hp).1 _ ?_
  rw [List.getD_eq_getElem _ _ hj]
  exact List.getElem_mem _

theorem interpLinear_knot : ∀ (pts : List (ℚ × ℚ)),
    (pts.map Prod.fst).Chain' (· < ·) →
    ∀ i, i < pts.length →
    interpLinear pts (pts.getD i (0, 0)).1 = (pts.getD i (0, 0)).2 := by
  intro pts
  induction pts with
  | nil =>
    intro _ i hi
    simp at hi
  | cons p1 tail ih =>
    intro hch i hi
    obtain ⟨x1, y1⟩ := p1
    cases tail with
    | nil =>
      have hi0 : i = 0 := by
        simp at hi
        omega
      subst hi0
      simp [interpLinear]
    | cons p2 tail2 =>
      obtain ⟨x2, y2⟩ := p2
      have hx12 : x1 < x2 := by
        simp only [List.map_cons] at hch
        exact (List.chain'_cons.mp hch).1
      have hch2 : (((x2, y2) :: tail2).map Prod.fst).Chain' (· < ·) := by
        simp only [List.map_cons] at hch ⊢
        exact (List.chain'_cons.mp hch).2
      cases i with
      | zero =>
        simp only [List.getD_cons_zero]
        cases tail2 with
        | nil =>
          show interpLinear [(x1, y1), (x2, y2)] x1 = y1
          simp [interpLinear]
        | cons p3 tail3 =>
          show interpLinear ((x1, y1) :: (x2, y2) :: p3 :: tail3) x1 = y1
          rw [interpLinear]
          rw [if_pos (le_of_lt hx12)]
          simp
      | succ j =>
        simp only [List.getD_cons_succ]
        cases tail2 with
        | nil =>
          have hj0 : j = 0 := by
            simp at hi
            omega
          subst hj0
          simp only [List.getD_cons_zero]
          show interpLinear [(x1, y1), (x2, y2)] x2 = y2
          rw [interpLinear]
          rw [mul_div_assoc, div_self (sub_ne_zero.mpr (ne_of_gt hx12))]
          ring
        | cons p3 tail3 =>
          by_cases hj0 : j = 0
          · subst hj0
            simp only [List.getD_cons_zero]
            show interpLinear ((x1, y1) :: (x2, y2) :: p3 :: tail3) x2 = y2
            rw [interpLinear]
            rw [if_pos le_rfl]
            rw [mul_div_assoc, div_self (sub_ne_zero.mpr (ne_of_gt hx12))]
            ring
          · have hj1 : 1 ≤ j := Nat.one_le_iff_ne_zero.mpr hj0
            have hjlen : j < (p3 :: tail3).length + 1 := by
              simp only [List.length_cons] at hi ⊢
              omega
            have hgt : x2 < (((x2, y2) :: p3 :: tail3).getD j (0, 0)).1 := by
              have hchx : (x2 :: (p3 :: tail3).map Prod.fst).Chain' (· < ·) := by
                simpa using hch2
              have hjm : j - 1 < ((p3 :: tail3).map Prod.fst).length := by
                rw [List.length_map]
                omega
              have h1 := chain'_lt_head_getD hchx hjm
              have hjj : j = (j - 1) + 1 := by omega
              rw [hjj, List.getD_cons_succ]
              rwa [List.getD_eq_getElem _ _ hjm, List.getElem_map,
                ← List.getD_eq_getElem _ (0, 0)] at h1
            show interpLinear ((x1, y1) :: (x2, y2) :: p3 :: tail3)
                (((x2, y2) :: p3 :: tail3).getD j (0, 0)).1 =
              (((x2, y2) :: p3 :: tail3).getD j (0, 0)).2
            rw [interpLinear]
            rw [if_neg (not_le.mpr hgt)]
            exact ih hch2 j (by simpa using hjlen)

theorem chain'_getD_lt {l : List ℚ} (h : l.Chain' (· < ·)) {i j : ℕ}
    (hij : i < j) (hj : j < l.length) : l.getD i 0 < l.getD j 0 := by
  have hp := List.chain'_iff_pairwise.mp h
  have hg := List.pairwise_iff_get.mp hp ⟨i, lt_trans hij hj⟩ ⟨j, hj⟩ hij
  rw [List.getD_eq_getElem _ _ (lt_trans hij hj), List.getD_eq_getElem _ _ hj]
  simpa [List.get_eq_getElem] using hg

theorem interp_map_self (fr vals : List ℚ) (hlen : fr.length = vals.length)
    (hch : fr.Chain' (· < ·)) :
    fr.map (interpLinear (fr.zip vals)) = vals := by
  apply List.ext_getElem
  · rw [List.length_map]
    exact hlen
  · intro k h1 h2
    rw [List.getElem_map]
    have hz : k < (fr.zip vals).length := by
      rw [List.length_zip]
      rw [List.length_map] at h1
      omega
    have hchz : ((fr.zip vals).map Prod.fst).Chain' (· < ·) := by
      rw [List.map_fst_zip _ _ (le_of_eq hlen)]
      exact hch
    have h := interpLinear_knot (fr.zip vals) hchz k hz
    rw [List.getD_eq_getElem _ _ hz, List.getElem_zip] at h
    dsimp only at h
    exact h

theorem compareStep_self_eq (user : List (String × List (ℚ × ℚ)))
    (hnodup : (user.map Prod.fst).Nodup)
    (e : String × List (ℚ × ℚ)) (he : e ∈ user)
    (hch : (e.2.map (fun v => v.1)).Chain' (· < ·))
    (hnn : ∀ f ∈ e.2.map (fun v => v.1), 0 ≤ f)
    (acc : List (String × ℚ) × ℚ × ℕ) :
    compareStep user acc e =
      if e.1 = "key_moments" ∨ e.2 = [] ∨ e.2.length ≤ 1 then acc
      else (acc.1 ++ [(e.1, 1)], acc.2.1 + 1, acc.2.2 + 1) := by
  unfold compareStep
  by_cases h1 : e.1 = "key_moments" ∨ e.2 = []
  · rw [if_pos h1, if_pos (by tauto)]
  · rw [if_neg h1]
    rw [nodup_lookup hnodup he]
    dsimp only
    rw [if_neg (by tauto)]
    have hlenmap : (e.2.map (fun v : ℚ × ℚ => v.1)).length = e.2.length :=
      List.length_map _ _
    by_cases h2 : 1 < e.2.length
    · rw [if_pos (by
        rw [List.length_map, List.length_map]
        exact h2)]
      rw [if_neg (by
        simp only [not_or]
        exact ⟨fun hk => h1 (Or.inl hk), fun hnil => h1 (Or.inr hnil), by omega⟩)]
      -- the interpolated pro values coincide with the user values
      have hl2 : 1 < (e.2.map (fun v : ℚ × ℚ => v.1)).length := by
        rw [List.length_map]
        exact h2
      have hM : 0 < pyListMax (e.2.map (fun v => v.1)) := by
        have hlt := chain'_getD_lt hch (show (0:ℕ) < 1 by norm_num) hl2
        have h0 : (0:ℚ) ≤ (e.2.map (fun v : ℚ × ℚ => v.1)).getD 0 0 := by
          refine hnn _ ?_
          rw [List.getD_eq_getElem _ _ (by omega)]
          exact List.getElem_mem _
        have hle : (e.2.map (fun v : ℚ × ℚ => v.1)).getD 1 0 ≤
            pyListMax (e.2.map (fun v => v.1)) := by
          refine le_pyListMax _ _ ?_
          rw [List.getD_eq_getElem _ _ hl2]
          exact List.getElem_mem _
        linarith
      have hchn : ((e.2.map (fun v => v.1)).map
          (fun f => f / pyListMax (e.2.map (fun v => v.1)))).Chain' (· < ·) := by
        rw [List.chain'_map]
        exact hch.imp (fun a b hab => (div_lt_div_iff_of_pos_right hM).mpr hab)
      have hpvi : ((e.2.map (fun v => v.1)).map
            (fun f => f / pyListMax (e.2.map (fun v => v.1)))).map
          (interpLinear (((e.2.map (fun v => v.1)).map
            (fun f => f / pyListMax (e.2.map (fun v => v.1)))).zip
            (e.2.map (fun v => v.2)))) = e.2.map (fun v => v.2) := by
        apply interp_map_self
        · rw [List.length_map, List.length_map, List.length_map]
        · exact hchn
      rw [hpvi, metricSimilarity_self]
      norm_num
    · rw [if_neg (by
        rw [List.length_map, List.length_map]
        exact h2)]
      rw [if_pos (Or.inr (Or.inr (by omega)))]

theorem compareStep_count_le (pm : List (String × List (ℚ × ℚ)))
    (acc : List (String × ℚ) × ℚ × ℕ) (e : String × List (ℚ × ℚ)) :
    acc.2.2 ≤ (compareStep pm acc e).2.2 := by
  unfold compareStep
  split_ifs with h1
  · exact le_rfl
  · cases pm.lookup e.1 with
    | none => exact le_rfl
    | some ps =>
      dsimp only
      split_ifs
      · exact le_rfl
      · exact Nat.le_succ _
      · exact le_rfl

theorem compareFold_count_le (pm : List (String × List (ℚ × ℚ)))
    (l : List (String × List (ℚ × ℚ))) :
    ∀ acc, acc.2.2 ≤ (l.foldl (compareStep pm) acc).2.2 := by
  induction l with
  | nil => intro acc; exact le_rfl
  | cons a t ih =>
    intro acc
    exact le_trans (compareStep_count_le pm acc a) (ih _)

theorem compareFold_self_total (user : List (String × List (ℚ × ℚ)))
    (hnodup : (user.map Prod.fst).Nodup)
    (hall : ∀ e ∈ user, ((e.2.map (fun v => v.1)).Chain' (· < ·)) ∧
      ∀ f ∈ e.2.map (fun v => v.1), 0 ≤ f) :
    ∀ l : List (String × List (ℚ × ℚ)), (∀ x ∈ l, x ∈ user) →
    ∀ acc : List (String × ℚ) × ℚ × ℕ, acc.2.1 = (acc.2.2 : ℚ) →
    (l.foldl (compareStep user) acc).2.1 =
      ((l.foldl (compareStep user) acc).2.2 : ℚ) := by
  intro l
  induction l with
  | nil => intro _ acc hacc; exact hacc
  | cons a t ih =>
    intro hsub acc hacc
    have hau := hsub a (List.mem_cons_self _ _)
    have hstep := compareStep_self_eq user hnodup a hau (hall a hau).1 (hall a hau).2 acc
    rw [List.foldl_cons, hstep]
    split_ifs with hc
    · exact ih (fun x hx => hsub x (List.mem_cons_of_mem _ hx)) acc hacc
    · refine ih (fun x hx => hsub x (List.mem_cons_of_mem _ hx)) _ ?_
      dsimp only
      push_cast
      rw [hacc]

theorem compareFold_count_gain (user : List (String × List (ℚ × ℚ)))
    (hnodup : (user.map Prod.fst).Nodup)
    (hall : ∀ e ∈ user, ((e.2.map (fun v => v.1)).Chain' (· < ·)) ∧
      ∀ f ∈ e.2.map (fun v => v.1), 0 ≤ f) :
    ∀ l : List (String × List (ℚ × ℚ)), ∀ e ∈ l, (∀ x ∈ l, x ∈ user) →
    e.1 ≠ "key_moments" → 1 < e.2.length →
    ∀ acc : List (String × ℚ) × ℚ × ℕ,
      acc.2.2 + 1 ≤ (l.foldl (compareStep user) acc).2.2 := by
  intro l
  induction l with
  | nil => intro e he; simp at he
  | cons a t ih =>
    intro e he hsub hkm hlen acc
    rcases List.mem_cons.mp he with rfl | he'
    · have hau := hsub e (List.mem_cons_self _ _)
      have hstep := compareStep_self_eq user hnodup e hau (hall e hau).1 (hall e hau).2 acc
      rw [List.foldl_cons, hstep]
      rw [if_neg (by
        simp only [not_or]
        exact ⟨hkm, by intro hnil; rw [hnil] at hlen; simp at hlen, by omega⟩)]
      have := compareFold_count_le user t (acc.1 ++ [(e.1, 1)], acc.2.1 + 1, acc.2.2 + 1)
      simpa using this
    · rw [List.foldl_cons]
      have h1 := compareStep_count_le user acc a
      have h2 := ih e he' (fun x hx => hsub x (List.mem_cons_of_mem _ hx)) hkm hlen
        (compareStep user acc a)
      omega

/-- C5: comparing a metric time series map against itself (strictly
increasing nonnegative frames, no duplicate metric names, at least one
non-`key_moments` series with at least two points) yields overall similarity
exactly 1; moreover, for ALL inputs every per-metric similarity is clamped to
[0, 1] and the overall similarity is the unweighted mean of the computed
per-metric similarities. -/
theorem c5_similarity_self (user : List (String × List (ℚ × ℚ))) (pro : ProModel)
    (hnodup : (user.map Prod.fst).Nodup)
    (hall : ∀ e ∈ user, ((e.2.map (fun v => v.1)).Chain' (· < ·)) ∧
      ∀ f ∈ e.2.map (fun v => v.1), 0 ≤ f)
    (hex : ∃ e ∈ user, e.1 ≠ "key_moments" ∧ 1 < e.2.length)
    (hpro : pro.metrics = user) :
    (compare_with_pro user pro).overall_similarity = 1 ∧
    (∀ u' p', ∀ s ∈ (compare_with_pro u' p').metric_similarities,
      0 ≤ s.2 ∧ s.2 ≤ 1) ∧
    (∀ u' p', (compare_with_pro u' p').metric_similarities ≠ [] →
      (compare_with_pro u' p').overall_similarity =
        ((compare_with_pro u' p').metric_similarities.map Prod.snd).sum /
          (((compare_with_pro u' p').metric_similarities.length : ℕ) : ℚ)) := by
  refine ⟨?_, fun u' p' => compare_with_pro_scores_clamped u' p',
    fun u' p' => compare_with_pro_overall_mean u' p'⟩
  unfold compare_with_pro
  rw [hpro]
  dsimp only
  obtain ⟨e, he, hkm, hlen⟩ := hex
  have hcount := compareFold_count_gain user hnodup hall user e he (fun x hx => hx)
    hkm hlen ([], 0, 0)
  have htotal := compareFold_self_total user hnodup hall user (fun x hx => hx)
    ([], 0, 0) (by norm_num)
  rw [if_pos (by
    simp only at hcount
    omega)]
  rw [htotal]
  refine div_self ?_
  have : 0 < (user.foldl (compareStep user) ([], 0, 0)).2.2 := by
    simp only at hcount
    omega
  exact Nat.cast_ne_zero.mpr this.ne'

theorem c5_similarity_self_witness :
    (userMetricsOne.map Prod.fst).Nodup ∧
    (∀ e ∈ userMetricsOne, ((e.2.map (fun v => v.1)).Chain' (· < ·)) ∧
      ∀ f ∈ e.2.map (fun v => v.1), 0 ≤ f) ∧
    (∃ e ∈ userMetricsOne, e.1 ≠ "key_moments" ∧ 1 < e.2.length) ∧
    (compare_with_pro userMetricsOne ⟨"Pro", "backhand", userMetricsOne⟩).overall_similarity = 1 := by
  have h1 : (userMetricsOne.map Prod.fst).Nodup := by
    simp [userMetricsOne]
  have h2 : ∀ e ∈ userMetricsOne, ((e.2.map (fun v => v.1)).Chain' (· < ·)) ∧
      ∀ f ∈ e.2.map (fun v => v.1), 0 ≤ f := by
    intro e he
    simp only [userMetricsOne, List.mem_singleton] at he
    subst he
    refine ⟨?_, ?_⟩
    · simp only [List.map_cons, List.map_nil]
      exact List.chain'_cons.mpr ⟨by norm_num, List.chain'_singleton _⟩
    · intro f hf
      simp only [List.map_cons, List.map_nil, List.mem_cons, List.not_mem_nil,
        or_false] at hf
      rcases hf with rfl | rfl <;> norm_num
  have h3 : ∃ e ∈ userMetricsOne, e.1 ≠ "key_moments" ∧ 1 < e.2.length := by
    refine ⟨("elbow_angle", [(0, 10), (1, 20)]), ?_, ?_, ?_⟩
    · simp [userMetricsOne]
    · decide
    · decide
  exact ⟨h1, h2, h3,
    (c5_similarity_self userMetricsOne ⟨"Pro", "backhand", userMetricsOne⟩
      h1 h2 h3 rfl).1⟩
